import Mathlib

/-!
# Verification of the cobalt-entity replication core

A shallow embedding of the `cobalt-entity` Rust crate (server/client entity
synchronisation over datagrams) together with proofs about the embedded
functions.

Modelling conventions:

* Wire bytes (`Vec<u8>`) are `List Nat`; every byte the library itself writes
  is kept below 256 by construction (`% 256` appears exactly where the source
  casts a `usize` to `u8`).  Host-supplied `u8` values (entity kinds, payload
  bytes) are modelled as plain `Nat`.
* A Rust abort (`panic!` on oversized payloads, or an `unwrap` of an empty
  slot) is modelled as `none` in an `Option`-valued result.
* The host's entity trait object is modelled by `EntitySpec`, a record of the
  pure functions the core calls on an entity (`kind`, `to_bytes`,
  `part_bytes`, `merge_bytes`, `filter`).  The lifecycle hooks `created()` and
  `destroyed()` are modelled as emitted events (`Ev`), tagged with a unique
  instance identifier assigned from a per-engine `fresh_id` counter; the
  counter stands in for Rust box identity and does not otherwise influence
  behaviour.
-/

set_option maxRecDepth 8000

namespace CobaltEntity

/-- Wire bytes. -/
abbrev Bytes := List Nat

/-- `Config` from `src/shared/mod.rs`. -/
structure Config where
  handle_timeout_ticks : Nat
  minimum_update_interval : Option Nat
deriving DecidableEq

/-- The `Default` impl for `Config`. -/
def Config.default : Config :=
  { handle_timeout_ticks := 30, minimum_update_interval := none }

/-- `deserialize_entity_bytes` from `src/shared/mod.rs`: reads the 1-byte
length field at the front of `bytes` and returns the slice
`bytes[1 .. entity_length + overhead]` together with the number of bytes
consumed, or `none` if fewer than `entity_length + overhead` bytes remain. -/
def deserialize_entity_bytes (bytes : Bytes) (overhead : Nat) : Option (Bytes × Nat) :=
  let bytes_length := bytes.length
  if bytes_length < overhead then
    none
  else
    let entity_length := bytes.headD 0
    if bytes_length < entity_length + overhead then
      none
    else
      some ((bytes.drop 1).take (entity_length + overhead - 1), entity_length + overhead)

/-- `PacketList` from `src/shared/mod.rs`: a bounded-capacity byte packer. -/
structure PacketList where
  max_bytes_per_packet : Nat
  packet_bytes : Bytes
  packets : List Bytes
deriving DecidableEq

/-- `PacketList::new`. -/
def PacketList.new (max_bytes_per_packet : Nat) : PacketList :=
  { max_bytes_per_packet := max_bytes_per_packet, packet_bytes := [], packets := [] }

/-- `PacketList::append_bytes`: append the chunk to the current packet if it
fits, otherwise push the current packet (when non-empty) and start a new
packet with the chunk. -/
def PacketList.append_bytes (p : PacketList) (bytes : Bytes) : PacketList :=
  if p.packet_bytes.length + bytes.length ≤ p.max_bytes_per_packet then
    { p with packet_bytes := p.packet_bytes ++ bytes }
  else
    { p with
      packets := if p.packet_bytes.isEmpty then p.packets else p.packets ++ [p.packet_bytes],
      packet_bytes := bytes }

/-- `PacketList::into_vec`: flush the current packet if non-empty. -/
def PacketList.into_vec (p : PacketList) : List Bytes :=
  if p.packet_bytes.isEmpty then p.packets else p.packets ++ [p.packet_bytes]

/-- Feeding a whole stream of chunks through `append_bytes`, as the send
loops of both engines do. -/
def PacketList.appendAll (p : PacketList) (chunks : List Bytes) : PacketList :=
  chunks.foldl PacketList.append_bytes p

/-- The frame list produced for a stream of chunks with byte limit `m`:
`PacketList::new`, a fold of `append_bytes`, then `into_vec`. -/
def packChunks (m : Nat) (chunks : List Bytes) : List Bytes :=
  ((PacketList.new m).appendAll chunks).into_vec

/-- All bytes held by a `PacketList`, in order. -/
def PacketList.content (p : PacketList) : Bytes :=
  p.packets.flatten ++ p.packet_bytes

theorem PacketList.content_append_bytes (p : PacketList) (c : Bytes) :
    (p.append_bytes c).content = p.content ++ c := by
  unfold PacketList.append_bytes PacketList.content
  by_cases h : p.packet_bytes.length + c.length ≤ p.max_bytes_per_packet
  · simp [h]
  · by_cases he : p.packet_bytes.isEmpty
    · simp [h, he, List.isEmpty_iff.mp he]
    · simp [h, he, List.append_assoc]

theorem PacketList.content_appendAll (p : PacketList) (chunks : List Bytes) :
    (p.appendAll chunks).content = p.content ++ chunks.flatten := by
  induction chunks generalizing p with
  | nil => simp [PacketList.appendAll]
  | cons c cs ih =>
      simp only [PacketList.appendAll, List.foldl_cons] at *
      rw [ih, PacketList.content_append_bytes]
      simp [List.append_assoc]

theorem PacketList.flatten_into_vec (p : PacketList) :
    p.into_vec.flatten = p.content := by
  unfold PacketList.into_vec PacketList.content
  by_cases he : p.packet_bytes.isEmpty
  · simp [he, List.isEmpty_iff.mp he]
  · simp [he]

/-- Invariant used for the chunk-grouping argument: the packets already
pushed and the current packet are each the concatenation of a consecutive
group of the processed chunks. -/
def PacketList.Grouped (p : PacketList) (processed : List Bytes) : Prop :=
  ∃ (groups : List (List Bytes)) (cur : List Bytes),
    p.packets = groups.map List.flatten ∧
    p.packet_bytes = cur.flatten ∧
    groups.flatten ++ cur = processed ∧
    (∀ x ∈ cur, x ≠ [])

theorem PacketList.flatten_eq_nil_of_members_ne {cur : List (List Nat)}
    (hcur : ∀ x ∈ cur, x ≠ []) (h : cur.flatten = []) : cur = [] := by
  cases cur with
  | nil => rfl
  | cons y ys =>
      exfalso
      simp only [List.flatten_cons, List.append_eq_nil] at h
      exact hcur y (by simp) h.1

theorem PacketList.grouped_append_bytes (p : PacketList) (processed : List Bytes)
    (c : Bytes) (hc : c ≠ []) (h : p.Grouped processed) :
    (p.append_bytes c).Grouped (processed ++ [c]) := by
  obtain ⟨groups, cur, hp, hb, hj, hcur⟩ := h
  unfold PacketList.append_bytes
  by_cases hfit : p.packet_bytes.length + c.length ≤ p.max_bytes_per_packet
  · rw [if_pos hfit]
    refine ⟨groups, cur ++ [c], ?_, ?_, ?_, ?_⟩
    · exact hp
    · simp [hb]
    · rw [← List.append_assoc, hj]
    · intro x hx
      rcases List.mem_append.mp hx with hx | hx
      · exact hcur x hx
      · simp only [List.mem_singleton] at hx; subst hx; exact hc
  · rw [if_neg hfit]
    by_cases he : p.packet_bytes.isEmpty
    · -- the current packet is empty, so `cur` flattens to `[]`, hence `cur`
      -- contains no chunks at all (its members are non-empty)
      have hcurnil : cur = [] :=
        PacketList.flatten_eq_nil_of_members_ne hcur
          (by rw [← hb]; exact List.isEmpty_iff.mp he)
      refine ⟨groups, [c], ?_, ?_, ?_, ?_⟩
      · simp only [if_pos he]; exact hp
      · simp
      · rw [← hj, hcurnil]; simp
      · intro x hx; simp only [List.mem_singleton] at hx; subst hx; exact hc
    · refine ⟨groups ++ [cur], [c], ?_, ?_, ?_, ?_⟩
      · simp only [if_neg he]; simp [hp, hb]
      · simp
      · rw [← hj]; simp
      · intro x hx; simp only [List.mem_singleton] at hx; subst hx; exact hc

theorem PacketList.grouped_appendAll (p : PacketList) (processed chunks : List Bytes)
    (hc : ∀ c ∈ chunks, c ≠ []) (h : p.Grouped processed) :
    (p.appendAll chunks).Grouped (processed ++ chunks) := by
  induction chunks generalizing p processed with
  | nil => simpa [PacketList.appendAll] using h
  | cons c cs ih =>
      simp only [PacketList.appendAll, List.foldl_cons]
      have step := PacketList.grouped_append_bytes p processed c (hc c (by simp)) h
      have := ih (p.append_bytes c) (processed ++ [c])
        (fun x hx => hc x (by simp [hx])) step
      simpa [PacketList.appendAll, List.append_assoc] using this

/-- C3: the packet list processes chunks in order — a chunk is appended to
the current packet exactly when it fits, otherwise the current packet is
pushed only if non-empty and the chunk starts a new packet; at end of stream
a non-empty current packet is flushed; consequently the concatenation of all
output frames equals the concatenation of the input chunks, and (for
non-empty chunks) every frame is the concatenation of a consecutive group of
chunks, so no chunk is ever split across frames. -/
theorem packetList_packs_chunks_in_order (m : Nat) (chunks : List Bytes) :
    (∀ (p : PacketList) (c : Bytes),
      (p.packet_bytes.length + c.length ≤ p.max_bytes_per_packet →
        p.append_bytes c = { p with packet_bytes := p.packet_bytes ++ c }) ∧
      (¬ p.packet_bytes.length + c.length ≤ p.max_bytes_per_packet →
        p.append_bytes c =
          { p with
            packets := if p.packet_bytes.isEmpty then p.packets
                       else p.packets ++ [p.packet_bytes],
            packet_bytes := c })) ∧
    (∀ p : PacketList,
      p.into_vec = if p.packet_bytes.isEmpty then p.packets
                   else p.packets ++ [p.packet_bytes]) ∧
    (packChunks m chunks).flatten = chunks.flatten ∧
    ((∀ c ∈ chunks, c ≠ []) →
      ∃ groups : List (List Bytes),
        packChunks m chunks = groups.map List.flatten ∧ groups.flatten = chunks) := by
  refine ⟨?_, ?_, ?_, ?_⟩
  · intro p c
    constructor
    · intro h; simp [PacketList.append_bytes, h]
    · intro h; simp [PacketList.append_bytes, h]
  · intro p; rfl
  · rw [packChunks, PacketList.flatten_into_vec, PacketList.content_appendAll]
    simp [PacketList.new, PacketList.content]
  · intro hne
    have base : (PacketList.new m).Grouped [] :=
      ⟨[], [], by simp [PacketList.new], by simp [PacketList.new], by simp, by simp⟩
    have h := PacketList.grouped_appendAll (PacketList.new m) [] chunks hne base
    obtain ⟨groups, cur, hp, hb, hj, hcur⟩ := h
    simp only [List.nil_append] at hj
    unfold packChunks PacketList.into_vec
    by_cases he : ((PacketList.new m).appendAll chunks).packet_bytes.isEmpty
    · have hcurnil : cur = [] :=
        PacketList.flatten_eq_nil_of_members_ne hcur
          (by rw [← hb]; exact List.isEmpty_iff.mp he)
      rw [if_pos he]
      refine ⟨groups, hp, ?_⟩
      rw [← hj, hcurnil]; simp
    · rw [if_neg he]
      refine ⟨groups ++ [cur], ?_, ?_⟩
      · simp [hp, hb]
      · rw [← hj]; simp

/-- Witness for `packetList_packs_chunks_in_order` at a concrete input:
limit 4, chunks `[[1,2],[3,4],[5]]` pack into frames `[[1,2,3,4],[5]]`. -/
theorem packetList_packs_chunks_in_order_witness :
    (packChunks 4 [[1,2],[3,4],[5]]).flatten = [1,2,3,4,5] ∧
    (∃ groups : List (List Bytes),
      packChunks 4 [[1,2],[3,4],[5]] = groups.map List.flatten ∧
      groups.flatten = [[1,2],[3,4],[5]]) := by
  refine ⟨?_, ?_⟩
  · have h := (packetList_packs_chunks_in_order 4 [[1,2],[3,4],[5]]).2.2.1
    simpa using h
  · exact (packetList_packs_chunks_in_order 4 [[1,2],[3,4],[5]]).2.2.2 (by decide)

/-! ## Wire-protocol opcodes (`NetworkState` enums) -/

/-- Server-to-client opcodes, `NetworkState` in `src/server/mod.rs`. -/
inductive ServerNetworkState
  | SendCreateToClient
  | ConfirmClientCreate
  | SendUpdateToClient
  | SendDestroyToClient
  | SendForgetToClient
deriving DecidableEq

/-- Discriminant values of the server `NetworkState` enum. -/
def ServerNetworkState.toByte : ServerNetworkState → Nat
  | .SendCreateToClient => 0
  | .ConfirmClientCreate => 1
  | .SendUpdateToClient => 3
  | .SendDestroyToClient => 4
  | .SendForgetToClient => 5

/-- `NetworkState::from_u8` (server). -/
def ServerNetworkState.from_u8 (state : Nat) : Option ServerNetworkState :=
  match state with
  | 0 => some .SendCreateToClient
  | 1 => some .ConfirmClientCreate
  | 3 => some .SendUpdateToClient
  | 4 => some .SendDestroyToClient
  | 5 => some .SendForgetToClient
  | _ => none

/-- `NetworkState::is_potential_packet` (server): `first_byte <= 5`. -/
def ServerNetworkState.is_potential_packet (first_byte : Nat) : Bool :=
  first_byte ≤ 5

/-- Client-to-server opcodes, `NetworkState` in `src/client/mod.rs`. -/
inductive ClientNetworkState
  | ConfirmCreateToServer
  | AcceptServerUpdate
  | SendUpdateToServer
  | ConfirmDestroyToServer
deriving DecidableEq

/-- Discriminant values of the client `NetworkState` enum. -/
def ClientNetworkState.toByte : ClientNetworkState → Nat
  | .ConfirmCreateToServer => 1
  | .AcceptServerUpdate => 2
  | .SendUpdateToServer => 3
  | .ConfirmDestroyToServer => 4

/-- `NetworkState::from_u8` (client). -/
def ClientNetworkState.from_u8 (state : Nat) : Option ClientNetworkState :=
  match state with
  | 1 => some .ConfirmCreateToServer
  | 2 => some .AcceptServerUpdate
  | 3 => some .SendUpdateToServer
  | 4 => some .ConfirmDestroyToServer
  | _ => none

/-- `NetworkState::is_potential_packet` (client): `1 <= first_byte <= 4`. -/
def ClientNetworkState.is_potential_packet (first_byte : Nat) : Bool :=
  1 ≤ first_byte && first_byte ≤ 4

/-! ## Per-(connection, entity) state machines

The Rust `state_machine!` macro generates mutating methods returning a `Bool`
(whether the transition fired); here each method returns the flag together
with the (possibly unchanged) successor state. -/

/-- `RemoteState` from `src/server/entity.rs` (declaration order gives the
derived `Ord`). -/
inductive RemoteState
  | Unknown
  | Accept
  | Create
  | Update
  | Destroy
  | Forget
  | Forgotten
deriving DecidableEq

/-- Rank of a `RemoteState` in declaration order (the derived Rust `Ord`). -/
def RemoteState.toNat : RemoteState → Nat
  | .Unknown => 0
  | .Accept => 1
  | .Create => 2
  | .Update => 3
  | .Destroy => 4
  | .Forget => 5
  | .Forgotten => 6

/-- `RemoteState::accept`: `Unknown => Accept`. -/
def RemoteState.accept : RemoteState → Bool × RemoteState
  | .Unknown => (true, .Accept)
  | s => (false, s)

/-- `RemoteState::reset_accepted`: `Accept => Unknown`. -/
def RemoteState.reset_accepted : RemoteState → Bool × RemoteState
  | .Accept => (true, .Unknown)
  | s => (false, s)

/-- `RemoteState::reset_destroyed`: `Destroy => Unknown`. -/
def RemoteState.reset_destroyed : RemoteState → Bool × RemoteState
  | .Destroy => (true, .Unknown)
  | s => (false, s)

/-- `RemoteState::reset_forgotten`: `Forgotten => Unknown`. -/
def RemoteState.reset_forgotten : RemoteState → Bool × RemoteState
  | .Forgotten => (true, .Unknown)
  | s => (false, s)

/-- `RemoteState::create`: `Unknown => Create`. -/
def RemoteState.create : RemoteState → Bool × RemoteState
  | .Unknown => (true, .Create)
  | s => (false, s)

/-- `RemoteState::update`: `Create => Update`. -/
def RemoteState.update : RemoteState → Bool × RemoteState
  | .Create => (true, .Update)
  | s => (false, s)

/-- `RemoteState::destroy`: `Accept | Create | Update => Destroy`. -/
def RemoteState.destroy : RemoteState → Bool × RemoteState
  | .Accept => (true, .Destroy)
  | .Create => (true, .Destroy)
  | .Update => (true, .Destroy)
  | s => (false, s)

/-- `RemoteState::forget`: `Accept | Create | Update => Forget`. -/
def RemoteState.forget : RemoteState → Bool × RemoteState
  | .Accept => (true, .Forget)
  | .Create => (true, .Forget)
  | .Update => (true, .Forget)
  | s => (false, s)

/-- `RemoteState::forgotten`: `Forget => Forgotten`. -/
def RemoteState.forgotten : RemoteState → Bool × RemoteState
  | .Forget => (true, .Forgotten)
  | s => (false, s)

/-- `LocalState` from `src/client/entity.rs`. -/
inductive LocalState
  | Unknown
  | Accept
  | Create
  | Update
deriving DecidableEq

/-- `LocalState::create`: `Unknown => Create`. -/
def LocalState.create : LocalState → Bool × LocalState
  | .Unknown => (true, .Create)
  | s => (false, s)

/-- `LocalState::accept`: `Create => Accept`. -/
def LocalState.accept : LocalState → Bool × LocalState
  | .Create => (true, .Accept)
  | s => (false, s)

/-- `LocalState::update`: `Accept => Update`. -/
def LocalState.update : LocalState → Bool × LocalState
  | .Accept => (true, .Update)
  | s => (false, s)

/-- `LocalState::reset`: `Create | Accept | Update => Unknown`. -/
def LocalState.reset : LocalState → Bool × LocalState
  | .Create => (true, .Unknown)
  | .Accept => (true, .Unknown)
  | .Update => (true, .Unknown)
  | s => (false, s)

/-! ## Tokens, the host entity interface and entity handles -/

/-- Server-side `EntityToken`. -/
structure EntityToken where
  index : Nat
  server_index : Nat
deriving DecidableEq

/-- Client-side `EntityToken` (field `client_index` in the source). -/
structure ClientEntityToken where
  index : Nat
  client_index : Nat
deriving DecidableEq

/-- `ConnectionToken` from `src/server/mod.rs`. -/
structure ConnectionToken (U : Type) where
  user_data : U
  index : Nat
  server_index : Nat

/-- The host-supplied `Entity` trait, as the record of pure functions the core
calls on an entity value of type `Ent` (`U` is the connection user-data
type).  `kind` is a `u8` in the source; host values are assumed below 256. -/
structure EntitySpec (Ent U : Type) where
  kind : Ent → Nat
  to_bytes : Ent → ConnectionToken U → Bytes
  part_bytes : Ent → Option (ConnectionToken U) → Option Bytes
  merge_bytes : Ent → Option (ConnectionToken U) → Bytes → Ent
  filter : Ent → ConnectionToken U → Bool

/-- Lifecycle-hook events: `created()` / `destroyed()` invocations, tagged
with the entity instance identifier. -/
inductive Ev
  | created (id : Nat)
  | destroyed (id : Nat)
deriving DecidableEq

/-- The instance identifier of a `destroyed` event, if it is one. -/
def Ev.destroyedId : Ev → Option Nat
  | .destroyed i => some i
  | .created _ => none

/-- `EntityHandle` from `src/shared/entity_handle.rs`, generic over the
entity type `Ent` and the owning-token type `O`.  The entity box is paired
with its instance identifier. -/
structure EntityHandle (Ent O : Type) where
  token : O
  entity : Option (Nat × Ent)
  update_tick : Nat

/-- `EntityHandle::new`. -/
def EntityHandle.new (token : O) (entity : Nat × Ent) : EntityHandle Ent O :=
  { token := token, entity := some entity, update_tick := 0 }

/-- `EntityHandle::is_alive`. -/
def EntityHandle.is_alive (h : EntityHandle Ent O) : Bool :=
  h.entity.isSome

/-- `EntityHandle::merge_bytes`: updates the entity in place when alive. -/
def EntityHandle.merge_bytes (es : EntitySpec Ent U) (h : EntityHandle Ent O)
    (connection_slot : Option (ConnectionToken U)) (bytes : Bytes) : EntityHandle Ent O :=
  match h.entity with
  | some (i, e) => { h with entity := some (i, es.merge_bytes e connection_slot bytes) }
  | none => h

/-- `EntityHandle::replace_entity`: drops the old box without running
`destroyed()` (a `forget`), then stores the new one. -/
def EntityHandle.replace_entity (h : EntityHandle Ent O) (entity : Nat × Ent) :
    EntityHandle Ent O :=
  { h with entity := some entity }

/-- `EntityHandle::create`: runs the host's `created()` hook on a live
entity (modelled as an emitted event). -/
def EntityHandle.create (h : EntityHandle Ent O) : EntityHandle Ent O × List Ev :=
  match h.entity with
  | some (i, _) => (h, [.created i])
  | none => (h, [])

/-- `EntityHandle::destroy`: takes the entity box and runs `destroyed()` on
it; a no-op when the box is already gone. -/
def EntityHandle.destroy (h : EntityHandle Ent O) : EntityHandle Ent O × List Ev :=
  match h.entity with
  | some (i, _) => ({ h with entity := none }, [.destroyed i])
  | none => (h, [])

/-- `EntityHandle::forget`: takes the entity box without running the
`destroyed()` hook. -/
def EntityHandle.forget (h : EntityHandle Ent O) : EntityHandle Ent O :=
  { h with entity := none }

/-! ## Serializers (`Serializer::as_bytes`)

`none` models the source's abort (`panic!("More than 255 bytes in update!")`).
The returned `Nat` is the updated `update_tick` counter. -/

/-- The server `Serializer::as_bytes` from `src/server/entity.rs`. -/
def serverSerializerAsBytes (es : EntitySpec Ent U) (config : Config)
    (token : EntityToken) (connection_slot : ConnectionToken U)
    (state : RemoteState) (entity : Option (Nat × Ent)) (update_tick : Nat) :
    Option (Bytes × Nat) :=
  let index := token.index % 256
  match entity with
  | some (_, e) =>
    match state with
    | .Unknown =>
        let create_bytes := es.to_bytes e connection_slot
        if create_bytes.length > 255 then
          none
        else
          some ([ServerNetworkState.SendCreateToClient.toByte, index,
                 create_bytes.length % 256, es.kind e] ++ create_bytes, update_tick)
    | .Create =>
        some ([ServerNetworkState.ConfirmClientCreate.toByte, index], update_tick)
    | .Update =>
        match es.part_bytes e (some connection_slot) with
        | some update_bytes =>
            if update_bytes.length > 255 then
              none
            else
              some ([ServerNetworkState.SendUpdateToClient.toByte, index,
                     update_bytes.length % 256] ++ update_bytes, update_tick)
        | none =>
            match config.minimum_update_interval with
            | some tick_threshold =>
                let t := min (update_tick + 1) 255
                if t = tick_threshold then
                  some ([ServerNetworkState.SendUpdateToClient.toByte, index, 0], 0)
                else
                  some ([], t)
            | none => some ([], update_tick)
    | .Forget =>
        some ([ServerNetworkState.SendForgetToClient.toByte, index], update_tick)
    | _ => some ([], update_tick)
  | none =>
      some ([ServerNetworkState.SendDestroyToClient.toByte, index], update_tick)

/-- The client `Serializer::as_bytes` from `src/client/entity.rs`. -/
def clientSerializerAsBytes (es : EntitySpec Ent U) (config : Config)
    (token : ClientEntityToken) (connection_slot : Option (ConnectionToken U))
    (state : LocalState) (entity : Option (Nat × Ent)) (update_tick : Nat) :
    Option (Bytes × Nat) :=
  let index := token.index % 256
  match entity with
  | some (_, e) =>
    match state with
    | .Create =>
        some ([ClientNetworkState.ConfirmCreateToServer.toByte, index], update_tick)
    | .Accept =>
        some ([ClientNetworkState.AcceptServerUpdate.toByte, index], update_tick)
    | .Update =>
        match es.part_bytes e connection_slot with
        | some update_bytes =>
            if update_bytes.length > 255 then
              none
            else
              some ([ClientNetworkState.SendUpdateToServer.toByte, index,
                     update_bytes.length % 256] ++ update_bytes, update_tick)
        | none =>
            match config.minimum_update_interval with
            | some tick_threshold =>
                let t := min (update_tick + 1) 255
                if t = tick_threshold then
                  some ([ClientNetworkState.SendUpdateToServer.toByte, index, 0], 0)
                else
                  some ([], t)
            | none => some ([], update_tick)
    | .Unknown => some ([], update_tick)
  | none =>
      some ([ClientNetworkState.ConfirmDestroyToServer.toByte, index], update_tick)

/-- `EntityHandle::as_bytes` with the server serializer. -/
def EntityHandle.server_as_bytes (es : EntitySpec Ent U) (config : Config)
    (connection_slot : ConnectionToken U) (state : RemoteState)
    (h : EntityHandle Ent EntityToken) : Option (Bytes × EntityHandle Ent EntityToken) :=
  (serverSerializerAsBytes es config h.token connection_slot state h.entity h.update_tick).map
    (fun r => (r.1, { h with update_tick := r.2 }))

/-- `EntityHandle::as_bytes` with the client serializer. -/
def EntityHandle.client_as_bytes (es : EntitySpec Ent U) (config : Config)
    (connection_slot : Option (ConnectionToken U)) (state : LocalState)
    (h : EntityHandle Ent ClientEntityToken) : Option (Bytes × EntityHandle Ent ClientEntityToken) :=
  (clientSerializerAsBytes es config h.token connection_slot state h.entity h.update_tick).map
    (fun r => (r.1, { h with update_tick := r.2 }))

/-! ## Client engine (`src/client/mod.rs`) -/

/-- Client-side error enum. -/
inductive CError
  | InvalidPacketData (bytes : Bytes)
  | RemainingPacketData (bytes : Bytes)
deriving DecidableEq

/-- An entry of the client's `active_handles` vector:
`(EntityToken, Option<usize>, bool)`. -/
structure ActiveClientEntry where
  token : ClientEntityToken
  timeout : Option Nat
  connected : Bool
deriving DecidableEq

/-- The `Client` engine state.  `fresh_id` is the next entity instance
identifier (modelling Rust box identity; see the file header). -/
structure Client (Ent : Type) where
  index : Nat
  handles : List (Option (EntityHandle Ent ClientEntityToken))
  active_handles : List ActiveClientEntry
  local_states : List LocalState
  config : Config
  fresh_id : Nat

/-- `Client::new`: 256 empty entity slots, all local states `Unknown`. -/
def Client.new (config : Config) (index : Nat) : Client Ent :=
  { index := index
    handles := List.replicate 256 none
    active_handles := []
    local_states := List.replicate 256 LocalState.Unknown
    config := config
    fresh_id := 0 }

/-- The token-decoding loop of `Client::receive` (the `while i + 1 < len`
loop).  `reg` is the host's `EntityRegistry::entity_from_kind_and_bytes`.
Returns the mutated client, the lifecycle-hook events fired, and the error,
if any; transitions applied before an error stand, as in the source.
The loop is phrased with a `fuel` argument for structural recursion; the
wrapper passes `bytes.length`, which can never be exhausted because every
iteration consumes at least two bytes. -/
def Client.recvLoop (es : EntitySpec Ent U) (reg : Nat → Bytes → Option Ent) :
    Nat → Client Ent → Bytes → Client Ent × List Ev × Option CError
  | _, c, [] => (c, [], none)
  | _, c, [_] => (c, [], none)
  | 0, c, _ => (c, [], none)
  | fuel + 1, c, state :: index :: rest =>
    match ServerNetworkState.from_u8 state with
    | some .SendCreateToClient =>
      match deserialize_entity_bytes rest 2 with
      | some (entity_bytes, length) =>
        let c' :=
          match c.handles.getD index none with
          | none =>
            match reg (entity_bytes.headD 0) (entity_bytes.drop 1) with
            | some ent =>
              { c with
                local_states :=
                  c.local_states.set index (c.local_states.getD index .Unknown).create.2
                handles :=
                  c.handles.set index
                    (some (EntityHandle.new ⟨index, c.index⟩ (c.fresh_id, ent)))
                active_handles :=
                  c.active_handles ++ [⟨⟨index, c.index⟩, none, true⟩]
                fresh_id := c.fresh_id + 1 }
            | none => c
          | some handle =>
            let existing_kind :=
              match handle.entity with
              | some (_, e) => es.kind e
              | none => entity_bytes.headD 0
            if entity_bytes.headD 0 ≠ existing_kind ∨
                c.local_states.getD index .Unknown ≠ .Create then
              match reg (entity_bytes.headD 0) (entity_bytes.drop 1) with
              | some ent =>
                { c with
                  handles :=
                    c.handles.set index
                      (some (handle.replace_entity (c.fresh_id, ent)))
                  local_states :=
                    c.local_states.set index
                      ((c.local_states.getD index .Unknown).reset.2.create.2)
                  fresh_id := c.fresh_id + 1 }
              | none => c
            else c
        Client.recvLoop es reg fuel c' (rest.drop length)
      | none => Client.recvLoop es reg fuel c rest
    | some .ConfirmClientCreate =>
      match c.handles.getD index none with
      | some handle =>
        let (flag, ls) := (c.local_states.getD index .Unknown).accept
        let c' := { c with local_states := c.local_states.set index ls }
        if flag then
          let (h', evs) := handle.create
          let c'' := { c' with handles := c'.handles.set index (some h') }
          let (cr, evsr, err) := Client.recvLoop es reg fuel c'' rest
          (cr, evs ++ evsr, err)
        else
          Client.recvLoop es reg fuel c' rest
      | none => Client.recvLoop es reg fuel c rest
    | some .SendUpdateToClient =>
      match deserialize_entity_bytes rest 1 with
      | some (entity_bytes, length) =>
        let c' :=
          match c.handles.getD index none with
          | some handle =>
            let ls := (c.local_states.getD index .Unknown).update.2
            let c' := { c with local_states := c.local_states.set index ls }
            if ls = .Update ∧ entity_bytes ≠ [] then
              { c' with
                handles :=
                  c'.handles.set index (some (handle.merge_bytes es none entity_bytes)) }
            else c'
          | none => c
        Client.recvLoop es reg fuel c' (rest.drop length)
      | none => Client.recvLoop es reg fuel c rest
    | some .SendDestroyToClient =>
      match c.handles.getD index none with
      | some handle =>
        let (h', evs) := handle.destroy
        let c' := { c with handles := c.handles.set index (some h') }
        let (cr, evsr, err) := Client.recvLoop es reg fuel c' rest
        (cr, evs ++ evsr, err)
      | none => Client.recvLoop es reg fuel c rest
    | some .SendForgetToClient =>
      match c.handles.getD index none with
      | some handle =>
        Client.recvLoop es reg fuel
          { c with handles := c.handles.set index (some handle.forget) } rest
      | none => Client.recvLoop es reg fuel c rest
    | none => (c, [], some (.RemainingPacketData rest))

/-- `Client::receive`. -/
def Client.receive (es : EntitySpec Ent U) (reg : Nat → Bytes → Option Ent)
    (c : Client Ent) (bytes : Bytes) : Client Ent × List Ev × Option CError :=
  if bytes.length = 0 then
    (c, [], none)
  else if ¬ ServerNetworkState.is_potential_packet (bytes.headD 0) then
    (c, [], some (.InvalidPacketData bytes))
  else
    Client.recvLoop es reg bytes.length c bytes

/-- The per-entity body of the `Client::send` loop: unwraps the slot's handle
(`none` models the `unwrap` abort) and serialises it. -/
def Client.sendLoop (es : EntitySpec Ent U) (config : Config) :
    List (Option (EntityHandle Ent ClientEntityToken)) → List LocalState →
    PacketList → List ActiveClientEntry →
    Option (List (Option (EntityHandle Ent ClientEntityToken)) × PacketList)
  | hs, _, pl, [] => some (hs, pl)
  | hs, states, pl, e :: restEntries =>
    match hs.getD e.token.index none with
    | none => none
    | some handle =>
      match handle.client_as_bytes es config none (states.getD e.token.index .Unknown) with
      | none => none
      | some (bytes, h') =>
          Client.sendLoop es config (hs.set e.token.index (some h')) states
            (pl.append_bytes bytes) restEntries

/-- `Client::send`. -/
def Client.send (es : EntitySpec Ent U) (c : Client Ent)
    (max_bytes_per_packet : Nat) : Option (Client Ent × List Bytes) :=
  (Client.sendLoop es c.config c.handles c.local_states
      (PacketList.new max_bytes_per_packet) c.active_handles).map
    (fun r => ({ c with handles := r.1 }, r.2.into_vec))

/-- The per-entry body of `Client::update_entities_with`.  The callback `cb`
is the host's per-entity update closure. -/
def Client.updateEntry (cb : ClientEntityToken → Ent → Ent) (config : Config)
    (hs : List (Option (EntityHandle Ent ClientEntityToken)))
    (states : List LocalState) (e : ActiveClientEntry) :
    List (Option (EntityHandle Ent ClientEntityToken)) × List LocalState ×
      ActiveClientEntry :=
  let handle := hs.getD e.token.index none
  let e₁ :=
    match handle with
    | some h =>
      match h.entity with
      | some _ => e
      | none => if e.timeout.isNone
                then { e with timeout := some config.handle_timeout_ticks }
                else e
    | none => e
  let (hs₁, e₂) :=
    match handle with
    | some h =>
      let hs₁ :=
        match h.entity with
        | some (i, ent) =>
            hs.set e.token.index (some { h with entity := some (i, cb e.token ent) })
        | none => hs
      match e₁.timeout with
      | some t =>
          let t' := t - 1
          (hs₁, { e₁ with timeout := some t', connected := e₁.connected && !(t' = 0) })
      | none => (hs₁, e₁)
    | none => (hs, e₁)
  if e₂.connected then
    (hs₁, states, e₂)
  else
    (hs₁.set e.token.index none,
     states.set e.token.index (states.getD e.token.index .Unknown).reset.2,
     e₂)

/-- The loop of `Client::update_entities_with` over the active entries. -/
def Client.updateLoop (cb : ClientEntityToken → Ent → Ent) (config : Config) :
    List (Option (EntityHandle Ent ClientEntityToken)) → List LocalState →
    List ActiveClientEntry → List ActiveClientEntry →
    List (Option (EntityHandle Ent ClientEntityToken)) × List LocalState ×
      List ActiveClientEntry
  | hs, states, done, [] => (hs, states, done)
  | hs, states, done, e :: rest =>
      let r := Client.updateEntry cb config hs states e
      Client.updateLoop cb config r.1 r.2.1 (done ++ [r.2.2]) rest

/-- `Client::update_entities_with`. -/
def Client.update_entities_with (cb : ClientEntityToken → Ent → Ent)
    (c : Client Ent) : Client Ent :=
  let r := Client.updateLoop cb c.config c.handles c.local_states [] c.active_handles
  { c with
    handles := r.1
    local_states := r.2.1
    active_handles := r.2.2.filter (fun e => e.connected) }

/-- The loop of `Client::reset` over the active entries. -/
def Client.resetLoop :
    List (Option (EntityHandle Ent ClientEntityToken)) → List LocalState →
    List ActiveClientEntry →
    List (Option (EntityHandle Ent ClientEntityToken)) × List LocalState
  | hs, states, [] => (hs, states)
  | hs, states, e :: rest =>
      Client.resetLoop (hs.set e.token.index none)
        (states.set e.token.index (states.getD e.token.index .Unknown).reset.2) rest

/-- `Client::reset`: drops every handle and resets its local state, without
running any lifecycle hook. -/
def Client.reset (c : Client Ent) : Client Ent :=
  let r := Client.resetLoop c.handles c.local_states c.active_handles
  { c with handles := r.1, local_states := r.2, active_handles := [] }

/-! ## Server engine (`src/server/mod.rs`) -/

/-- Server-side error enum. -/
inductive SError
  | AllEntityTokensInUse
  | AllConnectionTokensInUse
  | UnknownSenderToken
  | UnknownReceiverToken (bytes : Bytes)
  | InvalidPacketData (bytes : Bytes)
  | RemainingPacketData (bytes : Bytes)
deriving DecidableEq

/-- An entry of the server's `active_handles` vector:
`(EntityToken, Option<usize>, usize, bool)` — token, destruction timeout,
connection reference count, connected flag. -/
structure ActiveEntityEntry where
  token : EntityToken
  timeout : Option Nat
  connection_count : Nat
  connected : Bool
deriving DecidableEq

/-- The `Server` engine state.  `index` is the process-unique server id
(a constructor argument here instead of a global atomic counter);
`fresh_id` is the next entity instance identifier (see the file header). -/
structure Server (Ent U : Type) where
  index : Nat
  handles : List (Option (EntityHandle Ent EntityToken))
  active_handles : List ActiveEntityEntry
  active_connections : List Nat
  connections : List (Option (List RemoteState))
  config : Config
  fresh_id : Nat

/-- `Server::new`: 256 empty entity slots and 256 empty connection slots. -/
def Server.new (config : Config) (index : Nat) : Server Ent U :=
  { index := index
    handles := List.replicate 256 none
    active_handles := []
    active_connections := []
    connections := List.replicate 256 none
    config := config
    fresh_id := 0 }

/-- `Server::find_free_entity_slot_index`: ascending scan over `0..256`. -/
def Server.find_free_entity_slot_index (s : Server Ent U) : Option Nat :=
  (List.range 256).find? (fun i => (s.handles.getD i none).isNone)

/-- `Server::find_free_connection_slot_index`: ascending scan over `0..256`. -/
def Server.find_free_connection_slot_index (s : Server Ent U) : Option Nat :=
  (List.range 256).find? (fun i => (s.connections.getD i none).isNone)

/-- `Server::entity_create_with`.  The factory is invoked only in the success
branch, exactly as in the source. -/
def Server.entity_create_with (s : Server Ent U) (factory : Unit → Ent) :
    Except SError (Server Ent U × EntityToken × List Ev) :=
  match s.find_free_entity_slot_index with
  | some index =>
      let handle : EntityHandle Ent EntityToken :=
        EntityHandle.new ⟨index, s.index⟩ (s.fresh_id, factory ())
      let (handle, evs) := handle.create
      Except.ok
        ({ s with
            handles := s.handles.set index (some handle)
            active_handles :=
              s.active_handles ++
                [⟨⟨index, s.index⟩, none, s.active_connections.length, true⟩]
            fresh_id := s.fresh_id + 1 },
         ⟨index, s.index⟩, evs)
  | none => Except.error SError.AllEntityTokensInUse

/-- `Server::entity_destroy`: runs `destroyed()` via `EntityHandle::destroy`
when the handle is still alive; returns the token back on a foreign or
unknown token. -/
def Server.entity_destroy (s : Server Ent U) (entity_token : EntityToken) :
    Except EntityToken (Server Ent U × List Ev) :=
  if entity_token.server_index ≠ s.index then
    Except.error entity_token
  else
    match s.handles.getD entity_token.index none with
    | some handle =>
        if handle.is_alive then
          let (h', evs) := handle.destroy
          Except.ok ({ s with handles := s.handles.set entity_token.index (some h') }, evs)
        else
          Except.ok (s, [])
    | none => Except.error entity_token

/-- The per-entry body of `Server::update_entities_with`.

Note on the source: inside the slot-release branch the code runs
`self.connections.iter_mut() … .map(|r| r.unwrap()).all(|mut remote_states| …)`,
but `r.unwrap()` copies the (`Copy`) state array out of the `&mut Option`,
so the `destroy`/`reset_destroyed` calls mutate a discarded copy and the
stored connection state arrays are left untouched; the embedding therefore
does not touch `connections` here. -/
def Server.updateEntry (cb : EntityToken → Ent → Ent) (config : Config)
    (hs : List (Option (EntityHandle Ent EntityToken))) (e : ActiveEntityEntry) :
    List (Option (EntityHandle Ent EntityToken)) × ActiveEntityEntry :=
  let handle := hs.getD e.token.index none
  let is_alive := match handle with
    | some h => h.is_alive
    | none => false
  if is_alive then
    let hs₁ :=
      match handle with
      | some h =>
        match h.entity with
        | some (i, ent) =>
            hs.set e.token.index (some { h with entity := some (i, cb e.token ent) })
        | none => hs
      | none => hs
    (hs₁, e)
  else
    let e₁ :=
      if e.connection_count > 0 then
        let t₀ := match e.timeout with
          | none => config.handle_timeout_ticks
          | some t => t
        let t₁ := t₀ - 1
        { e with
          timeout := some t₁
          connection_count := if t₁ = 0 then 0 else e.connection_count }
      else e
    if e₁.connection_count = 0 then
      (hs.set e.token.index none, { e₁ with connected := false })
    else
      (hs, e₁)

/-- The loop of `Server::update_entities_with` over the active entries. -/
def Server.updateLoop (cb : EntityToken → Ent → Ent) (config : Config) :
    List (Option (EntityHandle Ent EntityToken)) → List ActiveEntityEntry →
    List ActiveEntityEntry →
    List (Option (EntityHandle Ent EntityToken)) × List ActiveEntityEntry
  | hs, done, [] => (hs, done)
  | hs, done, e :: rest =>
      let r := Server.updateEntry cb config hs e
      Server.updateLoop cb config r.1 (done ++ [r.2]) rest

/-- `Server::update_entities_with`. -/
def Server.update_entities_with (cb : EntityToken → Ent → Ent)
    (s : Server Ent U) : Server Ent U :=
  let r := Server.updateLoop cb s.config s.handles [] s.active_handles
  { s with
    handles := r.1
    active_handles := r.2.filter (fun e => e.connected) }

/-- `Server::connection_add_with`: fresh all-`Unknown` state array, stepped
to `Accept` for every currently active entity slot. -/
def Server.connection_add_with (s : Server Ent U) (callback : Unit → U) :
    Except SError (Server Ent U × ConnectionToken U) :=
  match s.find_free_connection_slot_index with
  | some index =>
      let remote_states := s.active_handles.foldl
        (fun (rs : List RemoteState) e =>
          rs.set e.token.index (rs.getD e.token.index .Unknown).accept.2)
        (List.replicate 256 RemoteState.Unknown)
      Except.ok
        ({ s with
            connections := s.connections.set index (some remote_states)
            active_connections := s.active_connections ++ [index] },
         ⟨callback (), index, s.index⟩)
  | none => Except.error SError.AllConnectionTokensInUse

/-- `Server::connection_remove`.

Note on the source: the decrement loop tests
`remote_states[connection_token.index] > RemoteState::Accept` — the state of
the entity slot whose number equals the *connection's* index — for every
active handle, rather than `remote_states[entity_token.index]`; the
embedding reproduces this behaviour faithfully. -/
def Server.connection_remove (s : Server Ent U) (connection_token : ConnectionToken U) :
    Except (ConnectionToken U) (Server Ent U × U) :=
  if connection_token.server_index ≠ s.index then
    Except.error connection_token
  else
    match s.connections.getD connection_token.index none with
    | some remote_states =>
        let entries := s.active_handles.map
          (fun e =>
            if RemoteState.Accept.toNat <
                (remote_states.getD connection_token.index .Unknown).toNat then
              { e with connection_count := e.connection_count - 1 }
            else e)
        Except.ok
          ({ s with
              active_handles := entries
              connections := s.connections.set connection_token.index none
              active_connections :=
                s.active_connections.filter (fun i => i ≠ connection_token.index) },
           connection_token.user_data)
    | none => Except.error connection_token

/-- The per-entity loop of `Server::connection_send`.  Returns the updated
handle table, remote-state array, packet list and processed entries, or
`none` on an abort (`unwrap` of an empty slot, or an oversized payload in
the serializer). -/
def Server.sendLoop (es : EntitySpec Ent U) (config : Config)
    (connection_token : ConnectionToken U) :
    List (Option (EntityHandle Ent EntityToken)) → List RemoteState →
    PacketList → List ActiveEntityEntry → List ActiveEntityEntry →
    Option (List (Option (EntityHandle Ent EntityToken)) × List RemoteState ×
            PacketList × List ActiveEntityEntry)
  | hs, rs, pl, done, [] => some (hs, rs, pl, done)
  | hs, rs, pl, done, e :: restEntries =>
    match hs.getD e.token.index none with
    | none => none
    | some handle =>
      let remote_state := rs.getD e.token.index .Unknown
      let (remote_state, count) :=
        if handle.is_alive then
          let (flag, remote_state) := remote_state.reset_accepted
          let count := if flag then e.connection_count + 1 else e.connection_count
          let remote_state :=
            match handle.entity with
            | some (_, ent) =>
                if ¬ es.filter ent connection_token then
                  if remote_state.toNat < RemoteState.Forget.toNat then
                    remote_state.forget.2
                  else remote_state
                else
                  remote_state.reset_forgotten.2
            | none => remote_state
          (remote_state, count)
        else
          if e.connection_count > 0 then
            let (flag, remote_state) := remote_state.reset_destroyed
            (remote_state,
             if flag then e.connection_count - 1 else e.connection_count)
          else
            (remote_state, e.connection_count)
      if count > 0 then
        match handle.server_as_bytes es config connection_token remote_state with
        | none => none
        | some (bytes, h') =>
            Server.sendLoop es config connection_token
              (hs.set e.token.index (some h'))
              (rs.set e.token.index remote_state)
              (pl.append_bytes bytes)
              (done ++ [{ e with connection_count := count }])
              restEntries
      else
        Server.sendLoop es config connection_token
          hs
          (rs.set e.token.index remote_state)
          pl
          (done ++ [{ e with connection_count := count }])
          restEntries

/-- `Server::connection_send`. -/
def Server.connection_send (es : EntitySpec Ent U) (s : Server Ent U)
    (connection_token : ConnectionToken U) (max_bytes_per_packet : Nat) :
    Option (Except SError (Server Ent U × List Bytes)) :=
  if connection_token.server_index ≠ s.index then
    some (Except.error SError.UnknownSenderToken)
  else
    match s.connections.getD connection_token.index none with
    | some remote_states =>
        match Server.sendLoop es s.config connection_token s.handles remote_states
            (PacketList.new max_bytes_per_packet) [] s.active_handles with
        | none => none
        | some (hs, rs, pl, entries) =>
            some (Except.ok
              ({ s with
                  handles := hs
                  connections := s.connections.set connection_token.index (some rs)
                  active_handles := entries },
               pl.into_vec))
    | none => some (Except.error SError.UnknownSenderToken)

/-- The token-decoding loop of `Server::connection_receive`; `fuel` as in
`Client.recvLoop`. -/
def Server.recvLoop (es : EntitySpec Ent U) (connection_token : ConnectionToken U) :
    Nat → List (Option (EntityHandle Ent EntityToken)) → List RemoteState → Bytes →
    List (Option (EntityHandle Ent EntityToken)) × List RemoteState × Option SError
  | _, hs, rs, [] => (hs, rs, none)
  | _, hs, rs, [_] => (hs, rs, none)
  | 0, hs, rs, _ => (hs, rs, none)
  | fuel + 1, hs, rs, state :: index :: rest =>
    match ClientNetworkState.from_u8 state with
    | some .ConfirmCreateToServer =>
        let rs' :=
          if (hs.getD index none).isSome then
            rs.set index (rs.getD index .Unknown).create.2
          else rs
        Server.recvLoop es connection_token fuel hs rs' rest
    | some .AcceptServerUpdate =>
        let rs' :=
          if (hs.getD index none).isSome then
            rs.set index (rs.getD index .Unknown).update.2
          else rs
        Server.recvLoop es connection_token fuel hs rs' rest
    | some .SendUpdateToServer =>
        match deserialize_entity_bytes rest 1 with
        | some (entity_bytes, length) =>
            let hs' :=
              match hs.getD index none with
              | some handle =>
                  if rs.getD index .Unknown = .Update ∧ entity_bytes ≠ [] then
                    hs.set index
                      (some (handle.merge_bytes es (some connection_token) entity_bytes))
                  else hs
              | none => hs
            Server.recvLoop es connection_token fuel hs' rs (rest.drop length)
        | none => Server.recvLoop es connection_token fuel hs rs rest
    | some .ConfirmDestroyToServer =>
        let rs' :=
          match hs.getD index none with
          | some handle =>
              if ¬ handle.is_alive then
                rs.set index (rs.getD index .Unknown).destroy.2
              else
                rs.set index (rs.getD index .Unknown).forgotten.2
          | none => rs
        Server.recvLoop es connection_token fuel hs rs' rest
    | none => (hs, rs, some (.RemainingPacketData rest))

/-- `Server::connection_receive`. -/
def Server.connection_receive (es : EntitySpec Ent U) (s : Server Ent U)
    (connection_token : ConnectionToken U) (bytes : Bytes) :
    Server Ent U × Option SError :=
  if connection_token.server_index ≠ s.index then
    (s, some (.UnknownReceiverToken bytes))
  else
    match s.connections.getD connection_token.index none with
    | some remote_states =>
        if bytes.length = 0 then
          (s, none)
        else if ¬ ClientNetworkState.is_potential_packet (bytes.headD 0) then
          (s, some (.InvalidPacketData bytes))
        else
          let (hs, rs, err) :=
            Server.recvLoop es connection_token bytes.length s.handles remote_states bytes
          ({ s with
              handles := hs
              connections := s.connections.set connection_token.index (some rs) },
           err)
    | none => (s, some (.UnknownReceiverToken bytes))

/-! ## The §8 scenario instantiation

A concrete host-entity behaviour: entity kind 1, `to_bytes` returning
`[255, 128, U]` for a peer with user-data byte `U`, `part_bytes` returning
`None`, no filtering. -/

/-- The scenario entity behaviour. -/
def scenarioSpec : EntitySpec Unit Nat :=
  { kind := fun _ => 1
    to_bytes := fun _ tok => [255, 128, tok.user_data]
    part_bytes := fun _ _ => none
    merge_bytes := fun e _ _ => e
    filter := fun _ _ => true }

/-- The scenario registry: it recognises kind 1 only. -/
def scenarioReg : Nat → Bytes → Option Unit :=
  fun kind _ => if kind = 1 then some () else none

/-- Fresh scenario server (id 0, default config:
`minimum_update_interval = None`). -/
def scenarioServer0 : Server Unit Nat := Server.new Config.default 0

/-- The connection token for the registered peer with user-data byte 255. -/
def scenarioConn : ConnectionToken Nat := ⟨255, 0, 0⟩

/-- Server after registering the peer. -/
def scenarioServer1 : Server Unit Nat :=
  match scenarioServer0.connection_add_with (fun _ => 255) with
  | .ok (s, _) => s
  | .error _ => scenarioServer0

/-- Server after creating the entity. -/
def scenarioServer2 : Server Unit Nat :=
  match scenarioServer1.entity_create_with (fun _ => ()) with
  | .ok (s, _, _) => s
  | .error _ => scenarioServer1

/-- Server after its first `connection_send`. -/
def scenarioServer3 : Server Unit Nat :=
  match Server.connection_send scenarioSpec scenarioServer2 scenarioConn 64 with
  | some (.ok (s, _)) => s
  | _ => scenarioServer2

/-- Server after receiving the client's `[1,0]`. -/
def scenarioServer4 : Server Unit Nat :=
  (Server.connection_receive scenarioSpec scenarioServer3 scenarioConn [1,0]).1

/-- Server after its second `connection_send`. -/
def scenarioServer5 : Server Unit Nat :=
  match Server.connection_send scenarioSpec scenarioServer4 scenarioConn 64 with
  | some (.ok (s, _)) => s
  | _ => scenarioServer4

/-- Server after receiving the client's `[2,0]`. -/
def scenarioServer6 : Server Unit Nat :=
  (Server.connection_receive scenarioSpec scenarioServer5 scenarioConn [2,0]).1

/-- Server after its third `connection_send`. -/
def scenarioServer7 : Server Unit Nat :=
  match Server.connection_send scenarioSpec scenarioServer6 scenarioConn 64 with
  | some (.ok (s, _)) => s
  | _ => scenarioServer6

/-- Fresh scenario client. -/
def scenarioClient0 : Client Unit := Client.new Config.default 0

/-- Client after receiving the create frame. -/
def scenarioClient1 : Client Unit :=
  (Client.receive scenarioSpec scenarioReg scenarioClient0 [0,0,3,1,255,128,255]).1

/-- Client after its first `send`. -/
def scenarioClient2 : Client Unit :=
  match Client.send scenarioSpec scenarioClient1 64 with
  | some (c, _) => c
  | none => scenarioClient1

/-- Client after receiving the server's `[1,0]`. -/
def scenarioClient3 : Client Unit :=
  (Client.receive scenarioSpec scenarioReg scenarioClient2 [1,0]).1

/-- Client after its second `send`. -/
def scenarioClient4 : Client Unit :=
  match Client.send scenarioSpec scenarioClient3 64 with
  | some (c, _) => c
  | none => scenarioClient3

/-- A single chunk that fits the byte limit forms exactly one frame. -/
theorem packOneChunk (M : Nat) (c : Bytes) (hne : c ≠ []) (hlen : c.length ≤ M) :
    ((PacketList.new M).append_bytes c).into_vec = [c] := by
  have h1 : (PacketList.new M).append_bytes c =
      { max_bytes_per_packet := M, packet_bytes := c, packets := [] } := by
    unfold PacketList.new PacketList.append_bytes
    rw [if_pos (by simpa using hlen)]
    simp
  rw [h1]
  unfold PacketList.into_vec
  simp [hne]

/-- A single empty chunk yields no frames. -/
theorem packEmptyChunk (M : Nat) :
    ((PacketList.new M).append_bytes ([] : Bytes)).into_vec = [] := by
  have h1 : (PacketList.new M).append_bytes ([] : Bytes) = PacketList.new M := by
    unfold PacketList.new PacketList.append_bytes
    rw [if_pos (by simp)]
    simp
  rw [h1]
  unfold PacketList.new PacketList.into_vec
  simp

/-- C2: the full create handshake of §8 scenario 1 — server's first
`connection_send` emits exactly `[0,0,3,1,255,128,255]`; the client answers
`[1,0]`; the server then emits `[1,0]`; the client answers `[2,0]`; after
which the server's `connection_send` emits no frames. -/
theorem create_handshake_scenario (M : Nat) (hM : 7 ≤ M) :
    scenarioServer0.connection_add_with (fun _ => 255) =
      .ok (scenarioServer1, scenarioConn) ∧
    scenarioConn.user_data = 255 ∧
    scenarioServer1.entity_create_with (fun _ => ()) =
      .ok (scenarioServer2, ⟨0, 0⟩, [.created 0]) ∧
    Server.connection_send scenarioSpec scenarioServer2 scenarioConn M =
      some (.ok (scenarioServer3, [[0,0,3,1,255,128,255]])) ∧
    Client.receive scenarioSpec scenarioReg scenarioClient0 [0,0,3,1,255,128,255] =
      (scenarioClient1, [], none) ∧
    Client.send scenarioSpec scenarioClient1 M = some (scenarioClient2, [[1,0]]) ∧
    Server.connection_receive scenarioSpec scenarioServer3 scenarioConn [1,0] =
      (scenarioServer4, none) ∧
    Server.connection_send scenarioSpec scenarioServer4 scenarioConn M =
      some (.ok (scenarioServer5, [[1,0]])) ∧
    Client.receive scenarioSpec scenarioReg scenarioClient2 [1,0] =
      (scenarioClient3, [.created 0], none) ∧
    Client.send scenarioSpec scenarioClient3 M = some (scenarioClient4, [[2,0]]) ∧
    Server.connection_receive scenarioSpec scenarioServer5 scenarioConn [2,0] =
      (scenarioServer6, none) ∧
    Server.connection_send scenarioSpec scenarioServer6 scenarioConn M =
      some (.ok (scenarioServer7, [])) := by
  have hc7 : ([0,0,3,1,255,128,255] : Bytes).length ≤ M := by simp; omega
  have hc2 : ([1,0] : Bytes).length ≤ M := by simp; omega
  have hc2' : ([2,0] : Bytes).length ≤ M := by simp; omega
  refine ⟨rfl, rfl, rfl, ?_, rfl, ?_, rfl, ?_, rfl, ?_, rfl, ?_⟩
  · have h : Server.connection_send scenarioSpec scenarioServer2 scenarioConn M =
        some (.ok (scenarioServer3,
          ((PacketList.new M).append_bytes [0,0,3,1,255,128,255]).into_vec)) := rfl
    rw [packOneChunk M [0,0,3,1,255,128,255] (by decide) hc7] at h
    exact h
  · have h : Client.send scenarioSpec scenarioClient1 M =
        some (scenarioClient2, ((PacketList.new M).append_bytes [1,0]).into_vec) := rfl
    rw [packOneChunk M [1,0] (by decide) hc2] at h
    exact h
  · have h : Server.connection_send scenarioSpec scenarioServer4 scenarioConn M =
        some (.ok (scenarioServer5,
          ((PacketList.new M).append_bytes [1,0]).into_vec)) := rfl
    rw [packOneChunk M [1,0] (by decide) hc2] at h
    exact h
  · have h : Client.send scenarioSpec scenarioClient3 M =
        some (scenarioClient4, ((PacketList.new M).append_bytes [2,0]).into_vec) := rfl
    rw [packOneChunk M [2,0] (by decide) hc2'] at h
    exact h
  · have h : Server.connection_send scenarioSpec scenarioServer6 scenarioConn M =
        some (.ok (scenarioServer7,
          ((PacketList.new M).append_bytes ([] : Bytes)).into_vec)) := rfl
    rw [packEmptyChunk M] at h
    exact h

/-- Witness for `create_handshake_scenario` at `M = 64`. -/
theorem create_handshake_scenario_witness :
    Server.connection_send scenarioSpec scenarioServer2 scenarioConn 64 =
      some (.ok (scenarioServer3, [[0,0,3,1,255,128,255]])) ∧
    Server.connection_send scenarioSpec scenarioServer6 scenarioConn 64 =
      some (.ok (scenarioServer7, [])) :=
  ⟨(create_handshake_scenario 64 (by decide)).2.2.2.1,
   (create_handshake_scenario 64 (by decide)).2.2.2.2.2.2.2.2.2.2.2⟩

/-! ## List helpers -/

theorem list_getD_set_self {α : Type} (l : List α) (i : Nat) (x d : α)
    (h : i < l.length) : (l.set i x).getD i d = x := by
  simp [List.getD, List.getElem?_set_self', h]

theorem list_getD_set_ne {α : Type} (l : List α) {i j : Nat} (x d : α)
    (h : i ≠ j) : (l.set i x).getD j d = l.getD j d := by
  simp [List.getD, List.getElem?_set_ne h]

theorem list_set_getD_self {α : Type} (l : List α) (i : Nat) (d : α)
    (h : i < l.length) : l.set i (l.getD i d) = l := by
  apply List.ext_getElem?
  intro n
  by_cases hn : i = n
  · subst hn
    simp [List.getElem?_set_self', h, List.getD, List.getElem?_eq_getElem h]
  · simp [List.getElem?_set_ne hn]

/-! ## C4: the SendCreateToClient length field -/

/-- Counterexample to C4 as stated: for the scenario entity the serializer
emits length byte 3 for a token with kind byte 1 and 3 payload bytes — the
length field counts the payload only, not `kind`+payload (which would be 4) —
and the decoder consumes 5 = 2+len bytes after the index byte, not 1+len = 4. -/
theorem sendcreate_length_field_counterexample :
    serverSerializerAsBytes scenarioSpec Config.default ⟨0, 0⟩ scenarioConn
      .Unknown (some (0, ())) 0 = some ([0, 0, 3, 1, 255, 128, 255], 0) ∧
    ¬ ((3 : Nat) = ([1] : Bytes).length + ([255, 128, 255] : Bytes).length) ∧
    deserialize_entity_bytes [3, 1, 255, 128, 255] 2 = some ([1, 255, 128, 255], 5) ∧
    ¬ ((5 : Nat) = 1 + 3) := by
  refine ⟨rfl, by decide, rfl, by decide⟩

/-- C4 (amended): in a SendCreateToClient token the length byte counts only
the payload bytes; the decoder consumes exactly `2 + len` bytes after the
index byte (the length byte, then the kind byte, then `len` payload bytes),
with the kind occupying the first byte after the length byte. -/
theorem sendcreate_length_field {Ent U : Type} (es : EntitySpec Ent U)
    (config : Config) (token : EntityToken) (conn : ConnectionToken U)
    (i : Nat) (e : Ent) (t : Nat)
    (hlen : (es.to_bytes e conn).length ≤ 255) :
    serverSerializerAsBytes es config token conn .Unknown (some (i, e)) t =
      some (0 :: token.index % 256 :: (es.to_bytes e conn).length ::
            es.kind e :: es.to_bytes e conn, t) ∧
    ∀ (kind : Nat) (payload restb : Bytes),
      deserialize_entity_bytes (payload.length :: kind :: (payload ++ restb)) 2 =
        some (kind :: payload, payload.length + 2) := by
  constructor
  · have hno : ¬ (es.to_bytes e conn).length > 255 := by omega
    simp [serverSerializerAsBytes, ServerNetworkState.toByte, hno,
      Nat.mod_eq_of_lt (by omega : (es.to_bytes e conn).length < 256)]
  · intro kind payload restb
    unfold deserialize_entity_bytes
    have hl : (payload.length :: kind :: (payload ++ restb)).length =
        payload.length + restb.length + 2 := by simp
    rw [if_neg (by rw [hl]; omega)]
    simp only [List.headD_cons]
    rw [if_neg (by rw [hl]; omega)]
    have htake : ((payload.length :: kind :: (payload ++ restb)).drop 1).take
        (payload.length + 2 - 1) = kind :: payload := by
      simp only [List.drop_succ_cons, List.drop_zero]
      have : payload.length + 2 - 1 = payload.length + 1 := by omega
      rw [this]
      simp [List.take_cons, List.take_left]
    rw [htake]

/-- Witness for `sendcreate_length_field` at the scenario entity. -/
theorem sendcreate_length_field_witness :
    serverSerializerAsBytes scenarioSpec Config.default ⟨0, 0⟩ scenarioConn
      .Unknown (some (0, ())) 0 = some ([0, 0, 3, 1, 255, 128, 255], 0) ∧
    deserialize_entity_bytes [3, 1, 255, 128, 255] 2 = some ([1, 255, 128, 255], 5) := by
  have h := sendcreate_length_field scenarioSpec Config.default ⟨0, 0⟩ scenarioConn
    0 () 0 (by decide)
  exact ⟨h.1, h.2 1 [255, 128, 255] []⟩

/-! ## C5: truncated trailing tokens -/

/-- Counterexample to C5 as stated: the frame `[3,0,2,9]` ends in a truncated
SendUpdateToClient token (length field 2, one byte remaining), yet
`Client::receive` does not return `Ok`: the decoder resumes at the length
byte, reads `2` as an opcode and fails with `RemainingPacketData`. -/
theorem truncated_trailing_token_counterexample :
    (Client.receive scenarioSpec scenarioReg scenarioClient0 [3, 0, 2, 9]).2.2 =
      some (.RemainingPacketData []) ∧
    (Client.receive scenarioSpec scenarioReg scenarioClient0 [3, 0, 2, 9]).2.2 ≠ none := by
  exact ⟨rfl, by decide⟩

/-- C5 (amended): when a token's length field cannot be satisfied, the
decoder consumes only that token's opcode and index bytes and resumes
parsing at the length byte; the truncated token is silently ignored — the
call returns `Ok` with no transition applied — exactly when fewer than two
bytes remain after its opcode and index. -/
theorem truncated_trailing_token (Ent U : Type) (es : EntitySpec Ent U)
    (reg : Nat → Bytes → Option Ent) :
    (∀ (c : Client Ent) (op idx : Nat) (T : Bytes) (ov : Nat),
       ((op = 0 ∧ ov = 2) ∨ (op = 3 ∧ ov = 1)) →
       deserialize_entity_bytes T ov = none →
       T.length ≤ 1 →
       Client.receive es reg c (op :: idx :: T) = (c, [], none)) ∧
    (∀ (c : Client Ent) (fuel op idx : Nat) (T : Bytes) (ov : Nat),
       ((op = 0 ∧ ov = 2) ∨ (op = 3 ∧ ov = 1)) →
       deserialize_entity_bytes T ov = none →
       Client.recvLoop es reg (fuel + 1) c (op :: idx :: T) =
         Client.recvLoop es reg fuel c T) ∧
    (∀ (s : Server Ent U) (tok : ConnectionToken U) (rs : List RemoteState)
       (idx : Nat) (T : Bytes),
       tok.server_index = s.index →
       tok.index < s.connections.length →
       s.connections.getD tok.index none = some rs →
       deserialize_entity_bytes T 1 = none →
       T.length ≤ 1 →
       Server.connection_receive es s tok (3 :: idx :: T) = (s, none)) ∧
    (∀ (hs : List (Option (EntityHandle Ent EntityToken))) (rs : List RemoteState)
       (tok : ConnectionToken U) (fuel idx : Nat) (T : Bytes),
       deserialize_entity_bytes T 1 = none →
       Server.recvLoop es tok (fuel + 1) hs rs (3 :: idx :: T) =
         Server.recvLoop es tok fuel hs rs T) := by
  have hloopC : ∀ (c : Client Ent) (fuel op idx : Nat) (T : Bytes) (ov : Nat),
      ((op = 0 ∧ ov = 2) ∨ (op = 3 ∧ ov = 1)) →
      deserialize_entity_bytes T ov = none →
      Client.recvLoop es reg (fuel + 1) c (op :: idx :: T) =
        Client.recvLoop es reg fuel c T := by
    intro c fuel op idx T ov hop hdes
    rcases hop with ⟨hop, hov⟩ | ⟨hop, hov⟩ <;> subst hop <;> subst hov <;>
      simp [Client.recvLoop, ServerNetworkState.from_u8, hdes]
  have hloopS : ∀ (hs : List (Option (EntityHandle Ent EntityToken)))
      (rs : List RemoteState) (tok : ConnectionToken U) (fuel idx : Nat) (T : Bytes),
      deserialize_entity_bytes T 1 = none →
      Server.recvLoop es tok (fuel + 1) hs rs (3 :: idx :: T) =
        Server.recvLoop es tok fuel hs rs T := by
    intro hs rs tok fuel idx T hdes
    simp [Server.recvLoop, ClientNetworkState.from_u8, hdes]
  have hshort : ∀ (c : Client Ent) (fuel : Nat) (T : Bytes), T.length ≤ 1 →
      Client.recvLoop es reg fuel c T = (c, [], none) := by
    intro c fuel T hT
    match T, hT with
    | [], _ => cases fuel <;> rfl
    | [t], _ => cases fuel <;> rfl
  have hshortS : ∀ (hs : List (Option (EntityHandle Ent EntityToken)))
      (rs : List RemoteState) (tok : ConnectionToken U) (fuel : Nat) (T : Bytes),
      T.length ≤ 1 → Server.recvLoop es tok fuel hs rs T = (hs, rs, none) := by
    intro hs rs tok fuel T hT
    match T, hT with
    | [], _ => cases fuel <;> rfl
    | [t], _ => cases fuel <;> rfl
  refine ⟨?_, hloopC, ?_, hloopS⟩
  · intro c op idx T ov hop hdes hT
    have hlen : (op :: idx :: T).length = (T.length + 1) + 1 := by simp
    have hpot : ServerNetworkState.is_potential_packet op = true := by
      rcases hop with ⟨hop, _⟩ | ⟨hop, _⟩ <;> subst hop <;> decide
    unfold Client.receive
    rw [if_neg (by simp)]
    rw [if_neg (by simp [hpot])]
    rw [hlen, hloopC c (T.length + 1) op idx T ov hop hdes,
      hshort c (T.length + 1) T hT]
  · intro s tok rs idx T howner hidx hconn hdes hT
    have hlen : (3 :: idx :: T).length = (T.length + 1) + 1 := by simp
    unfold Server.connection_receive
    rw [if_neg (by omega)]
    simp only [hconn]
    rw [if_neg (by simp)]
    rw [if_neg (by simp [ClientNetworkState.is_potential_packet])]
    rw [hlen, hloopS s.handles rs tok (T.length + 1) idx T hdes,
      hshortS s.handles rs tok (T.length + 1) T hT]
    rw [← hconn, list_set_getD_self s.connections tok.index none hidx]

/-- Witness for `truncated_trailing_token`: the truncated frame `[3,0,5]`
is silently ignored by a fresh client. -/
theorem truncated_trailing_token_witness :
    Client.receive scenarioSpec scenarioReg scenarioClient0 [3, 0, 5] =
      (scenarioClient0, [], none) :=
  (truncated_trailing_token Unit Nat scenarioSpec scenarioReg).1
    scenarioClient0 3 0 [5] 1 (Or.inr ⟨rfl, rfl⟩) (by decide) (by decide)

/-! ## C6: RemainingPacketData drops the unknown opcode -/

/-- Evaluation at the failing input for C6: decoding `[1,0,9,7,42]` on a
fresh client applies the valid prefix (`ConfirmClientCreate` for the empty
slot 0, a no-op) and then fails on the unknown opcode 9 — but the returned
tail is `[42]`: the decoder has already consumed the unknown opcode byte 9
and the byte 7 after it, so a co-hosted protocol's packet cannot be
recovered.  The server side behaves identically. -/
theorem remaining_packet_data_drops_opcode :
    Client.receive scenarioSpec scenarioReg scenarioClient0 [1, 0, 9, 7, 42] =
      (scenarioClient0, [], some (.RemainingPacketData [42])) ∧
    (Server.connection_receive scenarioSpec scenarioServer3 scenarioConn
      [2, 0, 9, 7, 42]).2 = some (.RemainingPacketData [42]) := by
  exact ⟨rfl, rfl⟩

/-! ## C7: `connection_remove` reference-count decrements -/

/-- Fresh server for the `connection_remove` scenario. -/
def c7server0 : Server Unit Nat := Server.new Config.default 0

/-- Its registered connection (user data 7, connection index 0). -/
def c7conn : ConnectionToken Nat := ⟨7, 0, 0⟩

/-- Server after registering the connection. -/
def c7server1 : Server Unit Nat :=
  match c7server0.connection_add_with (fun _ => 7) with
  | .ok (s, _) => s
  | .error _ => c7server0

/-- Server after creating the entity in slot 0. -/
def c7server2 : Server Unit Nat :=
  match c7server1.entity_create_with (fun _ => ()) with
  | .ok (s, _, _) => s
  | .error _ => c7server1

/-- Server after creating the entity in slot 1. -/
def c7server3 : Server Unit Nat :=
  match c7server2.entity_create_with (fun _ => ()) with
  | .ok (s, _, _) => s
  | .error _ => c7server2

/-- Server after the connection confirmed creation of entity 1 (its
`RemoteState` for slot 1 is `Create`, past `Accept`; slot 0 stays
`Unknown`). -/
def c7server4 : Server Unit Nat :=
  (Server.connection_receive scenarioSpec c7server3 c7conn [1, 1]).1

/-- Server after `connection_remove`. -/
def c7server5 : Server Unit Nat :=
  match c7server4.connection_remove c7conn with
  | .ok (s, _) => s
  | .error _ => c7server4

/-- Evaluation at the failing input for C7: the connection's `RemoteState`
for entity slot 1 is `Create` (past `Accept`), so by the claim
`connection_remove` must decrement slot 1's reference count from 1 to 0;
instead the source tests `remote_states[connection_token.index]` — slot 0,
which is still `Unknown` — for every entry, and decrements nothing: the
counts remain `[1, 1]`.  The slot is freed and the user data returned. -/
theorem connection_remove_wrong_slot_check :
    ((c7server4.connections.getD 0 none).getD []).getD 1 .Unknown = .Create ∧
    ((c7server4.connections.getD 0 none).getD []).getD 0 .Unknown = .Unknown ∧
    RemoteState.Accept.toNat < RemoteState.Create.toNat ∧
    c7server4.active_handles.map (fun e => e.connection_count) = [1, 1] ∧
    c7server4.connection_remove c7conn = .ok (c7server5, 7) ∧
    c7server5.active_handles.map (fun e => e.connection_count) = [1, 1] ∧
    c7server5.connections.getD 0 none = none ∧
    c7server5.active_connections = [] :=
  ⟨rfl, rfl, by decide, rfl, rfl, rfl, rfl, rfl⟩

/-! ## C8: entity-slot reuse after destruction -/

/-- A `Config` with the given `handle_timeout_ticks` and no keepalive. -/
def c8cfg (t : Nat) : Config := ⟨t, none⟩

/-- The identity update callback. -/
def idCb : EntityToken → Unit → Unit := fun _ e => e

/-- Iterated `update_entities_with`. -/
def Server.updateN (cb : EntityToken → Ent → Ent) : Nat → Server Ent U → Server Ent U
  | 0, s => s
  | n + 1, s => Server.updateN cb n (Server.update_entities_with cb s)

/-- No-connection scenario: server after creating an entity in slot 0. -/
def c8sA : Server Unit Nat :=
  match (Server.new Config.default 0 : Server Unit Nat).entity_create_with (fun _ => ()) with
  | .ok (s, _, _) => s
  | .error _ => Server.new Config.default 0

/-- No-connection scenario: server after destroying it. -/
def c8sB : Server Unit Nat :=
  match c8sA.entity_destroy ⟨0, 0⟩ with
  | .ok (s, _) => s
  | .error _ => c8sA

/-- No-connection scenario: server after a further create (without any
intervening `update_entities_with`). -/
def c8sC : Server Unit Nat :=
  match c8sB.entity_create_with (fun _ => ()) with
  | .ok (s, _, _) => s
  | .error _ => c8sB

/-- Counterexample to C8 as stated: with no connections registered, after
`entity_create_with` (slot 0) and `entity_destroy`, the very next
`entity_create_with` returns slot index 1, not 0 — the destroyed slot is
only freed by `update_entities_with`, so it is not reusable yet. -/
theorem slot_reuse_counterexample :
    (Server.new Config.default 0 : Server Unit Nat).entity_create_with (fun _ => ()) =
      .ok (c8sA, ⟨0, 0⟩, [.created 0]) ∧
    c8sA.entity_destroy ⟨0, 0⟩ = .ok (c8sB, [.destroyed 0]) ∧
    c8sB.entity_create_with (fun _ => ()) = .ok (c8sC, ⟨1, 0⟩, [.created 1]) ∧
    (∀ (s : Server Unit Nat) (evs : List Ev),
      c8sB.entity_create_with (fun _ => ()) ≠ .ok (s, ⟨0, 0⟩, evs)) := by
  refine ⟨rfl, rfl, rfl, ?_⟩
  intro s evs h
  rw [show c8sB.entity_create_with (fun _ => ()) = .ok (c8sC, ⟨1, 0⟩, [.created 1])
    from rfl] at h
  simp [EntityToken.mk.injEq] at h

/-- No-connection amended scenario, parametric in the timeout: server after
creating slot 0. -/
def c8nA (t : Nat) : Server Unit Nat :=
  match (Server.new (c8cfg t) 0 : Server Unit Nat).entity_create_with (fun _ => ()) with
  | .ok (s, _, _) => s
  | .error _ => Server.new (c8cfg t) 0

/-- No-connection amended scenario: after destroying slot 0. -/
def c8nB (t : Nat) : Server Unit Nat :=
  match (c8nA t).entity_destroy ⟨0, 0⟩ with
  | .ok (s, _) => s
  | .error _ => c8nA t

/-- Connected scenario: server after registering a connection. -/
def c8connected (t : Nat) : Server Unit Nat :=
  match (Server.new (c8cfg t) 0 : Server Unit Nat).connection_add_with (fun _ => 7) with
  | .ok (s, _) => s
  | .error _ => Server.new (c8cfg t) 0

/-- Connected scenario: after creating the entity in slot 0 (reference
count 1, remote state `Unknown`). -/
def c8alive (t : Nat) : Server Unit Nat :=
  match (c8connected t).entity_create_with (fun _ => ()) with
  | .ok (s, _, _) => s
  | .error _ => c8connected t

/-- Connected scenario: after destroying the entity. -/
def c8destroyed (t : Nat) : Server Unit Nat :=
  match (c8alive t).entity_destroy ⟨0, 0⟩ with
  | .ok (s, _) => s
  | .error _ => c8alive t

/-- The destroyed-entity state mid-timeout: countdown at `k`. -/
def c8stateT (t k : Nat) : Server Unit Nat :=
  { index := 0
    handles := (List.replicate 256 (none : Option (EntityHandle Unit EntityToken))).set 0
      (some ⟨⟨0, 0⟩, none, 0⟩)
    active_handles := [⟨⟨0, 0⟩, some k, 1, true⟩]
    active_connections := [0]
    connections := (List.replicate 256 (none : Option (List RemoteState))).set 0
      (some (List.replicate 256 RemoteState.Unknown))
    config := c8cfg t
    fresh_id := 1 }

/-- The state once the timeout released the slot. -/
def c8freed (t : Nat) : Server Unit Nat :=
  { index := 0
    handles := ((List.replicate 256 (none : Option (EntityHandle Unit EntityToken))).set 0
      (some ⟨⟨0, 0⟩, none, 0⟩)).set 0 none
    active_handles := []
    active_connections := [0]
    connections := (List.replicate 256 (none : Option (List RemoteState))).set 0
      (some (List.replicate 256 RemoteState.Unknown))
    config := c8cfg t
    fresh_id := 1 }

/-- The freed slot, reoccupied. -/
def c8reused (t : Nat) : Server Unit Nat :=
  match (c8freed t).entity_create_with (fun _ => ()) with
  | .ok (s, _, _) => s
  | .error _ => c8freed t

theorem c8_update_destroyed_zero :
    Server.update_entities_with idCb (c8destroyed 0) = c8freed 0 := rfl

theorem c8_update_destroyed_one :
    Server.update_entities_with idCb (c8destroyed 1) = c8freed 1 := rfl

theorem c8_update_destroyed_big (j : Nat) :
    Server.update_entities_with idCb (c8destroyed (j + 2)) = c8stateT (j + 2) (j + 1) := rfl

theorem c8_update_stateT_one (t : Nat) :
    Server.update_entities_with idCb (c8stateT t 1) = c8freed t := rfl

theorem c8_update_stateT_big (t j : Nat) :
    Server.update_entities_with idCb (c8stateT t (j + 2)) = c8stateT t (j + 1) := rfl

theorem c8_updateN_stateT (t : Nat) : ∀ k,
    Server.updateN idCb (k + 1) (c8stateT t (k + 1)) = c8freed t := by
  intro k
  induction k with
  | zero =>
      show Server.updateN idCb 0 (Server.update_entities_with idCb (c8stateT t 1)) = c8freed t
      rw [c8_update_stateT_one]
      rfl
  | succ j ih =>
      show Server.updateN idCb (j + 1)
        (Server.update_entities_with idCb (c8stateT t (j + 2))) = c8freed t
      rw [c8_update_stateT_big]
      exact ih

theorem c8_updateN_destroyed (t : Nat) :
    Server.updateN idCb (max t 1) (c8destroyed t) = c8freed t := by
  match t with
  | 0 =>
      show Server.updateN idCb 1 (c8destroyed 0) = c8freed 0
      show Server.updateN idCb 0 (Server.update_entities_with idCb (c8destroyed 0)) = c8freed 0
      rw [c8_update_destroyed_zero]
      rfl
  | 1 =>
      show Server.updateN idCb 0 (Server.update_entities_with idCb (c8destroyed 1)) = c8freed 1
      rw [c8_update_destroyed_one]
      rfl
  | (j + 2) =>
      have hmax : max (j + 2) 1 = j + 2 := by omega
      rw [hmax]
      show Server.updateN idCb (j + 1)
        (Server.update_entities_with idCb (c8destroyed (j + 2))) = c8freed (j + 2)
      rw [c8_update_destroyed_big]
      exact c8_updateN_stateT (j + 2) j

/-- Ack scenario (continuing the §8 handshake at `scenarioServer4`): after
the destroy. -/
def c8ackA : Server Unit Nat :=
  match scenarioServer4.entity_destroy ⟨0, 0⟩ with
  | .ok (s, _) => s
  | .error _ => scenarioServer4

/-- Ack scenario: after receiving the client's `ConfirmDestroyToServer`. -/
def c8ackB : Server Unit Nat :=
  (Server.connection_receive scenarioSpec c8ackA scenarioConn [4, 0]).1

/-- Ack scenario: after the next `connection_send` (which consumes the
`Destroy` state and drops the reference count to 0). -/
def c8ackC : Server Unit Nat :=
  match Server.connection_send scenarioSpec c8ackB scenarioConn 64 with
  | some (.ok (s, _)) => s
  | _ => c8ackB

/-- C8 (amended): after `entity_destroy`, the entity's slot is freed only by
`update_entities_with`: (a) with no connections registered the slot is
reusable by the next `entity_create_with` after one `update_entities_with`
(not before, see the counterexample); (b) with a registered connection that
never acknowledges, the slot is freed after `max handle_timeout_ticks 1`
calls to `update_entities_with`; (c) once the peer has acknowledged the
destruction, one `connection_send` (which consumes the `Destroy` state and
drops the reference count to 0) followed by one `update_entities_with`
frees the slot. -/
theorem slot_reuse_after_destroy (t : Nat) :
    ((Server.new (c8cfg t) 0 : Server Unit Nat).entity_create_with (fun _ => ()) =
        .ok (c8nA t, ⟨0, 0⟩, [.created 0]) ∧
      (c8nA t).entity_destroy ⟨0, 0⟩ = .ok (c8nB t, [.destroyed 0]) ∧
      (∃ s evs, (Server.update_entities_with idCb (c8nB t)).entity_create_with
          (fun _ => ()) = .ok (s, ⟨0, 0⟩, evs))) ∧
    ((Server.new (c8cfg t) 0 : Server Unit Nat).connection_add_with (fun _ => 7) =
        .ok (c8connected t, ⟨7, 0, 0⟩) ∧
      (c8connected t).entity_create_with (fun _ => ()) =
        .ok (c8alive t, ⟨0, 0⟩, [.created 0]) ∧
      (c8alive t).entity_destroy ⟨0, 0⟩ = .ok (c8destroyed t, [.destroyed 0]) ∧
      Server.updateN idCb (max t 1) (c8destroyed t) = c8freed t ∧
      (c8freed t).entity_create_with (fun _ => ()) =
        .ok (c8reused t, ⟨0, 0⟩, [.created 1])) ∧
    (scenarioServer4.entity_destroy ⟨0, 0⟩ = .ok (c8ackA, [.destroyed 0]) ∧
      Server.connection_receive scenarioSpec c8ackA scenarioConn [4, 0] = (c8ackB, none) ∧
      Server.connection_send scenarioSpec c8ackB scenarioConn 64 =
        some (.ok (c8ackC, [])) ∧
      (∃ s evs, (Server.update_entities_with idCb c8ackC).entity_create_with
          (fun _ => ()) = .ok (s, ⟨0, 0⟩, evs))) := by
  refine ⟨⟨rfl, rfl, ⟨_, _, rfl⟩⟩,
    ⟨rfl, rfl, rfl, c8_updateN_destroyed t, rfl⟩,
    ⟨rfl, rfl, rfl, ⟨_, _, rfl⟩⟩⟩

/-! ## C9: slot scan and capacity of `entity_create_with` -/

theorem find?_range_some_spec (p : Nat → Bool) : ∀ (n i : Nat),
    (List.range n).find? p = some i → p i = true ∧ ∀ j, j < i → p j = false := by
  intro n
  induction n with
  | zero => intro i h; simp [List.range_zero] at h
  | succ n ih =>
      intro i h
      rw [List.range_succ, List.find?_append] at h
      cases hfn : (List.range n).find? p with
      | some a =>
          rw [hfn] at h
          simp only [Option.or_some, Option.some.injEq] at h
          subst h
          exact ih a hfn
      | none =>
          rw [hfn] at h
          simp only [Option.none_or] at h
          have hall := List.find?_eq_none.mp hfn
          by_cases hpn : p n = true
          · simp only [List.find?, hpn] at h
            injection h with h
            subst h
            refine ⟨hpn, fun j hj => ?_⟩
            have := hall j (List.mem_range.mpr hj)
            simpa using this
          · simp only [List.find?, Bool.not_eq_true] at h hpn
            rw [hpn] at h
            simp at h

theorem find?_range_eq_some_of (p : Nat → Bool) (i : Nat)
    (hpi : p i = true) (hmin : ∀ j, j < i → p j = false) :
    ∀ (n : Nat), i < n → (List.range n).find? p = some i := by
  intro n
  induction n with
  | zero => intro h; exact absurd h (by omega)
  | succ n ih =>
      intro hin
      rw [List.range_succ, List.find?_append]
      by_cases hi : i < n
      · rw [ih hi]; rfl
      · have hieq : i = n := by omega
        subst hieq
        have hfn : (List.range i).find? p = none := by
          apply List.find?_eq_none.mpr
          intro x hx
          have hx' := List.mem_range.mp hx
          simp [hmin x hx']
        rw [hfn]
        simp [List.find?, hpi]

/-- `Server::createN?`: iterate `entity_create_with`, `none` as soon as one
call fails. -/
def Server.createN? (f : Unit → Ent) : Nat → Server Ent U → Option (Server Ent U)
  | 0, s => some s
  | n + 1, s =>
    match s.entity_create_with f with
    | .ok (s', _, _) => Server.createN? f n s'
    | .error _ => none

/-- The entity table has its slots `0..k` occupied and the rest free. -/
def FilledBelow (s : Server Ent U) (k : Nat) : Prop :=
  s.handles.length = 256 ∧ ∀ j, j < 256 → ((s.handles.getD j none).isSome ↔ j < k)

theorem filled_find_some {s : Server Ent U} {k : Nat} (h : FilledBelow s k)
    (hk : k < 256) : s.find_free_entity_slot_index = some k := by
  unfold Server.find_free_entity_slot_index
  apply find?_range_eq_some_of _ _ ?hpk ?hmin 256 hk
  case hpk =>
    show (s.handles.getD k none).isNone = true
    rcases ho : s.handles.getD k none with _ | v
    · rfl
    · exfalso
      have hkk : k < k := (h.2 k hk).mp (by rw [ho]; rfl)
      omega
  case hmin =>
    intro j hj
    show (s.handles.getD j none).isNone = false
    have hsome : (s.handles.getD j none).isSome = true := (h.2 j (by omega)).mpr hj
    rcases ho : s.handles.getD j none with _ | v
    · rw [ho] at hsome; exact absurd hsome (by simp)
    · rfl

theorem filled_find_none {s : Server Ent U} (h : FilledBelow s 256) :
    s.find_free_entity_slot_index = none := by
  unfold Server.find_free_entity_slot_index
  apply List.find?_eq_none.mpr
  intro x hx
  have hx' := List.mem_range.mp hx
  have hsome : (s.handles.getD x none).isSome = true := (h.2 x hx').mpr hx'
  show ¬ (s.handles.getD x none).isNone = true
  rcases ho : s.handles.getD x none with _ | v
  · rw [ho] at hsome; exact absurd hsome (by simp)
  · simp

theorem create_filled_step {s : Server Ent U} {k : Nat} (f : Unit → Ent)
    (h : FilledBelow s k) (hk : k < 256) :
    ∃ (s' : Server Ent U) (evs : List Ev),
      s.entity_create_with f = .ok (s', ⟨k, s.index⟩, evs) ∧ FilledBelow s' (k + 1) := by
  unfold Server.entity_create_with
  rw [filled_find_some h hk]
  refine ⟨_, _, rfl, ?_, ?_⟩
  · simpa using h.1
  · intro j hj
    by_cases hjk : j = k
    · subst hjk
      rw [list_getD_set_self _ _ _ _ (by rw [h.1]; omega)]
      simp
    · rw [list_getD_set_ne _ _ _ (fun hh => hjk hh.symm)]
      rw [h.2 j hj]
      omega

theorem createN?_filled (f : Unit → Ent) : ∀ (m : Nat) (s : Server Ent U) (k : Nat),
    FilledBelow s k → k + m ≤ 256 →
    ∃ s', Server.createN? f m s = some s' ∧ FilledBelow s' (k + m) := by
  intro m
  induction m with
  | zero => intro s k h _; exact ⟨s, rfl, by simpa using h⟩
  | succ m ih =>
      intro s k h hm
      obtain ⟨s', evs, hc, hf⟩ := create_filled_step f h (by omega)
      unfold Server.createN?
      rw [hc]
      obtain ⟨s'', hc', hf'⟩ := ih s' (k + 1) hf (by omega)
      refine ⟨s'', hc', ?_⟩
      have harith : k + (m + 1) = k + 1 + m := by omega
      rw [harith]
      exact hf'

theorem list_getD_replicate {α : Type} (n j : Nat) (a d : α) :
    (List.replicate n a).getD j d = if j < n then a else d := by
  simp [List.getD, List.getElem?_replicate]
  split <;> simp

theorem fresh_filled (cfg : Config) (sid : Nat) :
    FilledBelow (Server.new cfg sid : Server Ent U) 0 := by
  refine ⟨by rw [show (Server.new cfg sid : Server Ent U).handles =
    List.replicate 256 none from rfl]; simp, ?_⟩
  intro j hj
  rw [show (Server.new cfg sid : Server Ent U).handles =
    List.replicate 256 none from rfl, list_getD_replicate]
  constructor
  · intro hs
    exfalso
    revert hs
    split <;> simp
  · intro hs; exact absurd hs (by omega)

/-- C9: every successful `entity_create_with` occupies the lowest free slot
(free at `tok.index`, occupied below it), the factory is invoked only on
success (on failure the result does not depend on the factory at all), and
from a fresh server `N ≤ 256` consecutive creates all succeed while the
`(N+1)`th returns `AllEntityTokensInUse` iff `N = 256`. -/
theorem entity_create_scan_and_capacity (Ent U : Type) (cfg : Config) (sid : Nat)
    (f : Unit → Ent) :
    (∀ (s s' : Server Ent U) (tok : EntityToken) (evs : List Ev),
       s.handles.length = 256 →
       s.entity_create_with f = .ok (s', tok, evs) →
       s.handles.getD tok.index none = none ∧
       (∀ j, j < tok.index → (s.handles.getD j none).isSome) ∧
       (s'.handles.getD tok.index none).isSome) ∧
    (∀ (s : Server Ent U) (g : Unit → Ent),
       s.find_free_entity_slot_index = none →
       s.entity_create_with f = .error .AllEntityTokensInUse ∧
       s.entity_create_with f = s.entity_create_with g) ∧
    (∀ N, N ≤ 256 → ∃ s' : Server Ent U,
       Server.createN? f N (Server.new cfg sid) = some s' ∧
       (s'.entity_create_with f = .error .AllEntityTokensInUse ↔ N = 256)) := by
  refine ⟨?_, ?_, ?_⟩
  · intro s s' tok evs hlen h
    unfold Server.entity_create_with at h
    cases hf : s.find_free_entity_slot_index with
    | none => rw [hf] at h; exact absurd h (by simp)
    | some k =>
        rw [hf] at h
        simp only [Except.ok.injEq, Prod.mk.injEq] at h
        obtain ⟨hs', htok, hevs⟩ := h
        have hk256 : k < 256 := by
          have hmem := List.mem_of_find?_eq_some hf
          exact List.mem_range.mp hmem
        have hspec := find?_range_some_spec _ 256 k hf
        subst htok
        refine ⟨?_, ?_, ?_⟩
        · exact Option.isNone_iff_eq_none.mp hspec.1
        · intro j hj
          have := hspec.2 j hj
          rcases ho : s.handles.getD j none with _ | v
          · rw [ho] at this; simp at this
          · rfl
        · rw [← hs']
          rw [list_getD_set_self _ _ _ _ (by rw [hlen]; omega)]
          rfl
  · intro s g h
    unfold Server.entity_create_with
    rw [h]
    exact ⟨rfl, rfl⟩
  · intro N hN
    obtain ⟨s', hc, hfill⟩ :=
      createN?_filled f N (Server.new cfg sid : Server Ent U) 0
        (fresh_filled cfg sid) (by omega)
    rw [Nat.zero_add] at hfill
    refine ⟨s', hc, ?_, ?_⟩
    · intro herr
      by_contra hne
      have hlt : N < 256 := by omega
      obtain ⟨s'', evs, hok, _⟩ := create_filled_step f hfill hlt
      rw [hok] at herr
      exact absurd herr (by simp)
    · intro hN256
      subst hN256
      unfold Server.entity_create_with
      rw [filled_find_none hfill]

/-- Witness for `entity_create_scan_and_capacity`: the §8 scenario's create
occupies slot 0, and a single create from a fresh server succeeds. -/
theorem entity_create_scan_and_capacity_witness :
    (scenarioServer1.handles.getD 0 none = none ∧
     (∀ j, j < (0 : Nat) → (scenarioServer1.handles.getD j none).isSome) ∧
     (scenarioServer2.handles.getD 0 none).isSome) ∧
    (∃ s' : Server Unit Nat,
       Server.createN? (fun _ => ()) 1 (Server.new Config.default 0) = some s' ∧
       (s'.entity_create_with (fun _ => ()) = .error .AllEntityTokensInUse ↔ 1 = 256)) := by
  constructor
  · exact (entity_create_scan_and_capacity Unit Nat Config.default 0 (fun _ => ())).1
      scenarioServer1 scenarioServer2 ⟨0, 0⟩ [.created 0] rfl rfl
  · exact (entity_create_scan_and_capacity Unit Nat Config.default 0 (fun _ => ())).2.2
      1 (by omega)

/-! ## C10: the 255-byte payload limit -/

/-- C10: if the host's `to_bytes` (create path) or `part_bytes` (update
path) yields more than 255 bytes, serialisation aborts (the source's
`panic!`, modelled as `none`); for payloads of at most 255 bytes the abort
branch is unreachable and the payload length is written losslessly into the
one-byte length field.  `EntityHandle::as_bytes` aborts exactly when the
serializer does. -/
theorem oversized_payload_panics (Ent U : Type) (es : EntitySpec Ent U)
    (config : Config) (token : EntityToken) (ctoken : ClientEntityToken)
    (conn : ConnectionToken U) (i : Nat) (e : Ent) (t : Nat) :
    ((es.to_bytes e conn).length > 255 →
      serverSerializerAsBytes es config token conn .Unknown (some (i, e)) t = none) ∧
    ((es.to_bytes e conn).length ≤ 255 →
      serverSerializerAsBytes es config token conn .Unknown (some (i, e)) t =
        some (0 :: token.index % 256 :: (es.to_bytes e conn).length ::
              es.kind e :: es.to_bytes e conn, t)) ∧
    (∀ pb, es.part_bytes e (some conn) = some pb →
      (pb.length > 255 →
        serverSerializerAsBytes es config token conn .Update (some (i, e)) t = none) ∧
      (pb.length ≤ 255 →
        serverSerializerAsBytes es config token conn .Update (some (i, e)) t =
          some (3 :: token.index % 256 :: pb.length :: pb, t))) ∧
    (∀ pb, es.part_bytes e none = some pb →
      (pb.length > 255 →
        clientSerializerAsBytes es config ctoken none .Update (some (i, e)) t = none) ∧
      (pb.length ≤ 255 →
        clientSerializerAsBytes es config ctoken none .Update (some (i, e)) t =
          some (3 :: ctoken.index % 256 :: pb.length :: pb, t))) ∧
    (∀ (h : EntityHandle Ent EntityToken) (st : RemoteState),
      h.server_as_bytes es config conn st = none ↔
        serverSerializerAsBytes es config h.token conn st h.entity h.update_tick = none) ∧
    (∀ (h : EntityHandle Ent ClientEntityToken) (st : LocalState),
      h.client_as_bytes es config none st = none ↔
        clientSerializerAsBytes es config h.token none st h.entity h.update_tick = none) := by
  refine ⟨?_, ?_, ?_, ?_, ?_, ?_⟩
  · intro hgt
    simp [serverSerializerAsBytes, hgt]
  · intro hle
    have hno : ¬ (es.to_bytes e conn).length > 255 := by omega
    simp [serverSerializerAsBytes, ServerNetworkState.toByte, hno,
      Nat.mod_eq_of_lt (by omega : (es.to_bytes e conn).length < 256)]
  · intro pb hpb
    constructor
    · intro hgt
      simp [serverSerializerAsBytes, hpb, hgt]
    · intro hle
      have hno : ¬ pb.length > 255 := by omega
      simp [serverSerializerAsBytes, ServerNetworkState.toByte, hpb, hno,
        Nat.mod_eq_of_lt (by omega : pb.length < 256)]
  · intro pb hpb
    constructor
    · intro hgt
      simp [clientSerializerAsBytes, hpb, hgt]
    · intro hle
      have hno : ¬ pb.length > 255 := by omega
      simp [clientSerializerAsBytes, ClientNetworkState.toByte, hpb, hno,
        Nat.mod_eq_of_lt (by omega : pb.length < 256)]
  · intro h st
    simp [EntityHandle.server_as_bytes, Option.map_eq_none']
  · intro h st
    simp [EntityHandle.client_as_bytes, Option.map_eq_none']

/-- A host-entity behaviour returning oversized payloads. -/
def oversizedSpec : EntitySpec Unit Nat :=
  { kind := fun _ => 2
    to_bytes := fun _ _ => List.replicate 300 7
    part_bytes := fun _ _ => some (List.replicate 300 7)
    merge_bytes := fun e _ _ => e
    filter := fun _ _ => true }

/-- Witness for `oversized_payload_panics`: a 300-byte payload aborts the
serializer on both sides; the §8 scenario's 3-byte payload is serialised
with length byte 3. -/
theorem oversized_payload_panics_witness :
    serverSerializerAsBytes oversizedSpec Config.default ⟨0, 0⟩ scenarioConn
      .Unknown (some (0, ())) 0 = none ∧
    clientSerializerAsBytes oversizedSpec Config.default ⟨0, 0⟩ none
      .Update (some (0, ())) 0 = none ∧
    serverSerializerAsBytes scenarioSpec Config.default ⟨0, 0⟩ scenarioConn
      .Unknown (some (0, ())) 0 = some ([0, 0, 3, 1, 255, 128, 255], 0) := by
  refine ⟨?_, ?_, ?_⟩
  · exact (oversized_payload_panics Unit Nat oversizedSpec Config.default ⟨0, 0⟩
      ⟨0, 0⟩ scenarioConn 0 () 0).1 (by simp [oversizedSpec])
  · exact ((oversized_payload_panics Unit Nat oversizedSpec Config.default ⟨0, 0⟩
      ⟨0, 0⟩ scenarioConn 0 () 0).2.2.2.1 (List.replicate 300 7) rfl).1 (by simp)
  · have := (oversized_payload_panics Unit Nat scenarioSpec Config.default ⟨0, 0⟩
      ⟨0, 0⟩ scenarioConn 0 () 0).2.1 (by decide)
    simpa using this

/-! ## C1: the `destroyed()` hook fires at most once per entity instance

The engines are driven through their public operations; the lifecycle-hook
events of a whole run are collected and the `destroyed` events shown
duplicate-free, via an invariant tying live instance identifiers to the
`fresh_id` counter. -/

/-- The instance identifiers of the `destroyed` events in a trace. -/
def destroyedIds (evs : List Ev) : List Nat :=
  evs.filterMap Ev.destroyedId

theorem destroyedIds_append (a b : List Ev) :
    destroyedIds (a ++ b) = destroyedIds a ++ destroyedIds b := by
  simp [destroyedIds]

/-- A host-driver operation on a `Client`. -/
inductive ClientOp
  | receive (bytes : Bytes)
  | update
  | send (max_bytes_per_packet : Nat)
  | reset

/-- One host-driver step on a `Client`, with the hook events it fires.
A `send` that aborts leaves the engine as it was. -/
def ClientStep (es : EntitySpec Ent U) (reg : Nat → Bytes → Option Ent)
    (cb : ClientEntityToken → Ent → Ent) (c : Client Ent) :
    ClientOp → Client Ent × List Ev
  | .receive bytes =>
      let r := Client.receive es reg c bytes
      (r.1, r.2.1)
  | .update => (Client.update_entities_with cb c, [])
  | .send m =>
      match Client.send es c m with
      | some (c', _) => (c', [])
      | none => (c, [])
  | .reset => (c.reset, [])

/-- A run of host-driver steps on a `Client`. -/
def ClientRun (es : EntitySpec Ent U) (reg : Nat → Bytes → Option Ent)
    (cb : ClientEntityToken → Ent → Ent) :
    Client Ent → List ClientOp → Client Ent × List Ev
  | c, [] => (c, [])
  | c, op :: ops =>
      let r := ClientStep es reg cb c op
      let r' := ClientRun es reg cb r.1 ops
      (r'.1, r.2 ++ r'.2)

/-- A host-driver operation on a `Server`. -/
inductive ServerOp (Ent U : Type)
  | createWith (e : Ent)
  | destroy (tok : EntityToken)
  | update
  | connectionAdd (u : U)
  | connectionRemove (tok : ConnectionToken U)
  | connectionSend (tok : ConnectionToken U) (max_bytes_per_packet : Nat)
  | connectionReceive (tok : ConnectionToken U) (bytes : Bytes)

/-- One host-driver step on a `Server`, with the hook events it fires. -/
def ServerStep (es : EntitySpec Ent U) (cb : EntityToken → Ent → Ent)
    (s : Server Ent U) : ServerOp Ent U → Server Ent U × List Ev
  | .createWith e =>
      match s.entity_create_with (fun _ => e) with
      | .ok (s', _, evs) => (s', evs)
      | .error _ => (s, [])
  | .destroy tok =>
      match s.entity_destroy tok with
      | .ok (s', evs) => (s', evs)
      | .error _ => (s, [])
  | .update => (Server.update_entities_with cb s, [])
  | .connectionAdd u =>
      match s.connection_add_with (fun _ => u) with
      | .ok (s', _) => (s', [])
      | .error _ => (s, [])
  | .connectionRemove tok =>
      match s.connection_remove tok with
      | .ok (s', _) => (s', [])
      | .error _ => (s, [])
  | .connectionSend tok m =>
      match Server.connection_send es s tok m with
      | some (.ok (s', _)) => (s', [])
      | _ => (s, [])
  | .connectionReceive tok bytes =>
      ((Server.connection_receive es s tok bytes).1, [])

/-- A run of host-driver steps on a `Server`. -/
def ServerRun (es : EntitySpec Ent U) (cb : EntityToken → Ent → Ent) :
    Server Ent U → List (ServerOp Ent U) → Server Ent U × List Ev
  | s, [] => (s, [])
  | s, op :: ops =>
      let r := ServerStep es cb s op
      let r' := ServerRun es cb r.1 ops
      (r'.1, r.2 ++ r'.2)

/-- The instance identifier held by slot `i` of a handle table. -/
def slotId (hs : List (Option (EntityHandle Ent O))) (i : Nat) : Option Nat :=
  match hs.getD i none with
  | some h => h.entity.map Prod.fst
  | none => none

/-- Freshness/uniqueness invariant: the already-destroyed identifiers `D`
are duplicate-free, everything is below the `fresh` counter, live
identifiers are pairwise distinct across slots and disjoint from `D`. -/
def InstOk (hs : List (Option (EntityHandle Ent O))) (fresh : Nat) (D : List Nat) : Prop :=
  D.Nodup ∧
  (∀ id ∈ D, id < fresh) ∧
  (∀ i id, slotId hs i = some id → id < fresh ∧ id ∉ D) ∧
  (∀ i j id, slotId hs i = some id → slotId hs j = some id → i = j)

theorem slotId_lt_length {hs : List (Option (EntityHandle Ent O))} {k id : Nat}
    (h : slotId hs k = some id) : k < hs.length := by
  by_contra hk
  unfold slotId at h
  rw [List.getD_eq_default _ _ (by omega)] at h
  exact absurd h (by simp)

theorem slotId_set (hs : List (Option (EntityHandle Ent O))) (k : Nat)
    (v : Option (EntityHandle Ent O)) (i : Nat) :
    slotId (hs.set k v) i =
      if i = k ∧ k < hs.length
      then v.bind (fun hh => hh.entity.map Prod.fst)
      else slotId hs i := by
  by_cases hik : i = k
  · subst hik
    by_cases hk : i < hs.length
    · rw [if_pos ⟨rfl, hk⟩]
      unfold slotId
      rw [list_getD_set_self _ _ _ _ hk]
      cases v <;> simp
    · rw [if_neg (by tauto)]
      rw [List.set_eq_of_length_le (by omega)]
  · rw [if_neg (by tauto)]
    unfold slotId
    rw [list_getD_set_ne _ _ _ (fun hh => hik hh.symm)]

theorem instOk_mono_fresh {hs : List (Option (EntityHandle Ent O))}
    {fresh fresh' : Nat} {D : List Nat} (h : InstOk hs fresh D)
    (hf : fresh ≤ fresh') : InstOk hs fresh' D := by
  obtain ⟨h1, h2, h3, h4⟩ := h
  refine ⟨h1, fun id hid => by have := h2 id hid; omega, fun i id hid => ?_, h4⟩
  have := h3 i id hid
  exact ⟨by omega, this.2⟩

theorem instOk_subset {hs hs' : List (Option (EntityHandle Ent O))}
    {fresh : Nat} {D : List Nat} (h : InstOk hs fresh D)
    (hsub : ∀ i id, slotId hs' i = some id → slotId hs i = some id) :
    InstOk hs' fresh D := by
  obtain ⟨h1, h2, h3, h4⟩ := h
  exact ⟨h1, h2, fun i id hid => h3 i id (hsub i id hid),
    fun i j id hi hj => h4 i j id (hsub i id hi) (hsub j id hj)⟩

/-- Setting a slot to a dead (or absent) handle preserves the invariant. -/
theorem instOk_set_dead {hs : List (Option (EntityHandle Ent O))}
    {fresh : Nat} {D : List Nat} (k : Nat) (h : InstOk hs fresh D)
    (v : Option (EntityHandle Ent O))
    (hv : v.bind (fun hh => hh.entity.map Prod.fst) = none) :
    InstOk (hs.set k v) fresh D := by
  apply instOk_subset h
  intro i id hid
  rw [slotId_set] at hid
  by_cases hc : i = k ∧ k < hs.length
  · rw [if_pos hc, hv] at hid
    exact absurd hid (by simp)
  · rwa [if_neg hc] at hid

/-- Re-setting a slot with a handle holding the same instance identifier
(changed entity value, hook, or `update_tick`) preserves the invariant. -/
theorem instOk_set_same {hs : List (Option (EntityHandle Ent O))}
    {fresh : Nat} {D : List Nat} (k : Nat) {handle : EntityHandle Ent O}
    (h : InstOk hs fresh D) (hk : hs.getD k none = some handle)
    (v : Option (EntityHandle Ent O))
    (hv : v.bind (fun hh => hh.entity.map Prod.fst) = handle.entity.map Prod.fst) :
    InstOk (hs.set k v) fresh D := by
  apply instOk_subset h
  intro i id hid
  rw [slotId_set] at hid
  by_cases hc : i = k ∧ k < hs.length
  · rw [if_pos hc, hv] at hid
    obtain ⟨hik, _⟩ := hc
    subst hik
    unfold slotId
    rw [hk]
    exact hid
  · rwa [if_neg hc] at hid

/-- Installing a brand-new instance with identifier `fresh` (create or
replace) preserves the invariant for counter `fresh + 1`. -/
theorem instOk_set_fresh {hs : List (Option (EntityHandle Ent O))}
    {fresh : Nat} {D : List Nat} (k : Nat) (h : InstOk hs fresh D)
    (v : Option (EntityHandle Ent O))
    (hv : v.bind (fun hh => hh.entity.map Prod.fst) = some fresh) :
    InstOk (hs.set k v) (fresh + 1) D := by
  obtain ⟨h1, h2, h3, h4⟩ := h
  refine ⟨h1, fun id hid => by have := h2 id hid; omega, ?_, ?_⟩
  · intro i id hid
    rw [slotId_set] at hid
    by_cases hc : i = k ∧ k < hs.length
    · rw [if_pos hc, hv] at hid
      injection hid with hid
      refine ⟨by omega, fun hmem => ?_⟩
      have h2' := h2 id hmem
      omega
    · rw [if_neg hc] at hid
      have := h3 i id hid
      exact ⟨by omega, this.2⟩
  · intro i j id hi hj
    rw [slotId_set] at hi hj
    by_cases hci : i = k ∧ k < hs.length <;> by_cases hcj : j = k ∧ k < hs.length
    · exact hci.1.trans hcj.1.symm
    · exfalso
      rw [if_pos hci, hv] at hi
      rw [if_neg hcj] at hj
      injection hi with hi
      have := h3 j id hj
      omega
    · exfalso
      rw [if_neg hci] at hi
      rw [if_pos hcj, hv] at hj
      injection hj with hj
      have := h3 i id hi
      omega
    · rw [if_neg hci] at hi
      rw [if_neg hcj] at hj
      exact h4 i j id hi hj

/-- Destroying the instance at slot `k` moves its identifier into `D`. -/
theorem instOk_destroy_at {hs : List (Option (EntityHandle Ent O))}
    {fresh : Nat} {D : List Nat} {k id : Nat} (h : InstOk hs fresh D)
    (hid : slotId hs k = some id)
    (v : Option (EntityHandle Ent O))
    (hv : v.bind (fun hh => hh.entity.map Prod.fst) = none) :
    InstOk (hs.set k v) fresh (D ++ [id]) := by
  obtain ⟨h1, h2, h3, h4⟩ := h
  have hfid := h3 k id hid
  refine ⟨?_, ?_, ?_, ?_⟩
  · simp [List.nodup_append, h1, hfid.2]
  · intro x hx
    rcases List.mem_append.mp hx with hx | hx
    · exact h2 x hx
    · simp only [List.mem_singleton] at hx
      subst hx
      exact hfid.1
  · intro i idx hidx
    rw [slotId_set] at hidx
    by_cases hc : i = k ∧ k < hs.length
    · rw [if_pos hc, hv] at hidx
      exact absurd hidx (by simp)
    · rw [if_neg hc] at hidx
      have h3' := h3 i idx hidx
      refine ⟨h3'.1, ?_⟩
      intro hmem
      rcases List.mem_append.mp hmem with hm | hm
      · exact h3'.2 hm
      · simp only [List.mem_singleton] at hm
        subst hm
        have hik : i = k := h4 i k idx hidx hid
        have hklen : k < hs.length := slotId_lt_length hid
        exact hc ⟨hik, hklen⟩
  · intro i j idx hi hj
    rw [slotId_set] at hi hj
    by_cases hci : i = k ∧ k < hs.length
    · rw [if_pos hci, hv] at hi
      exact absurd hi (by simp)
    · by_cases hcj : j = k ∧ k < hs.length
      · rw [if_pos hcj, hv] at hj
        exact absurd hj (by simp)
      · rw [if_neg hci] at hi
        rw [if_neg hcj] at hj
        exact h4 i j idx hi hj

/-- The invariant holds for a table of 256 empty slots. -/
theorem instOk_replicate (fresh : Nat) :
    InstOk (List.replicate 256 (none : Option (EntityHandle Ent O))) fresh [] := by
  have hnone : ∀ i, slotId (List.replicate 256 (none : Option (EntityHandle Ent O))) i = none := by
    intro i
    unfold slotId
    rw [list_getD_replicate]
    have hcollapse : (if i < 256 then (none : Option (EntityHandle Ent O)) else none) = none := by
      split <;> rfl
    rw [hcollapse]
  refine ⟨List.nodup_nil, by simp, ?_, ?_⟩
  · intro i id hid
    rw [hnone i] at hid
    exact absurd hid (by simp)
  · intro i j id hi _
    rw [hnone i] at hi
    exact absurd hi (by simp)

theorem slot_restrict_set_dead {hs : List (Option (EntityHandle Ent O))} (k : Nat)
    (v : Option (EntityHandle Ent O))
    (hv : v.bind (fun hh => hh.entity.map Prod.fst) = none) :
    ∀ i id, slotId (hs.set k v) i = some id → slotId hs i = some id := by
  intro i id hid
  rw [slotId_set] at hid
  by_cases hc : i = k ∧ k < hs.length
  · rw [if_pos hc, hv] at hid
    exact absurd hid (by simp)
  · rwa [if_neg hc] at hid

theorem slot_restrict_set_same {hs : List (Option (EntityHandle Ent O))} (k : Nat)
    {handle : EntityHandle Ent O} (hk : hs.getD k none = some handle)
    (v : Option (EntityHandle Ent O))
    (hv : v.bind (fun hh => hh.entity.map Prod.fst) = handle.entity.map Prod.fst) :
    ∀ i id, slotId (hs.set k v) i = some id → slotId hs i = some id := by
  intro i id hid
  rw [slotId_set] at hid
  by_cases hc : i = k ∧ k < hs.length
  · rw [if_pos hc, hv] at hid
    obtain ⟨hik, _⟩ := hc
    subst hik
    unfold slotId
    rw [hk]
    exact hid
  · rwa [if_neg hc] at hid

theorem entityHandle_create_fst (h : EntityHandle Ent O) : h.create.1 = h := by
  unfold EntityHandle.create
  rcases h.entity with _ | ⟨i, e⟩ <;> rfl

theorem destroyedIds_create (h : EntityHandle Ent O) : destroyedIds h.create.2 = [] := by
  unfold EntityHandle.create
  rcases hent : h.entity with _ | ⟨i, e⟩ <;>
    simp [hent, destroyedIds, Ev.destroyedId]

theorem merge_bytes_id (es : EntitySpec Ent U) (h : EntityHandle Ent O)
    (cs : Option (ConnectionToken U)) (bytes : Bytes) :
    (h.merge_bytes es cs bytes).entity.map Prod.fst = h.entity.map Prod.fst := by
  unfold EntityHandle.merge_bytes
  rcases hent : h.entity with _ | ⟨i, e⟩ <;> simp [hent]

/-- `InstOk` is preserved by the client's receive loop, with any `destroyed`
events appended to `D`. -/
theorem clientRecvLoop_instOk (es : EntitySpec Ent U) (reg : Nat → Bytes → Option Ent) :
    ∀ (fuel : Nat) (bytes : Bytes) (c : Client Ent) (D : List Nat),
      InstOk c.handles c.fresh_id D →
      InstOk (Client.recvLoop es reg fuel c bytes).1.handles
             (Client.recvLoop es reg fuel c bytes).1.fresh_id
             (D ++ destroyedIds (Client.recvLoop es reg fuel c bytes).2.1) := by
  intro fuel
  induction fuel with
  | zero =>
      intro bytes c D h
      match bytes with
      | [] => simpa [Client.recvLoop, destroyedIds] using h
      | [b] => simpa [Client.recvLoop, destroyedIds] using h
      | b1 :: b2 :: rest => simpa [Client.recvLoop, destroyedIds] using h
  | succ fuel ih =>
      intro bytes c D h
      match bytes with
      | [] => simpa [Client.recvLoop, destroyedIds] using h
      | [b] => simpa [Client.recvLoop, destroyedIds] using h
      | state :: index :: rest =>
        rcases hop : ServerNetworkState.from_u8 state with _ | sns
        · simpa [Client.recvLoop, hop, destroyedIds] using h
        · cases sns with
          | SendCreateToClient =>
              rcases hdes : deserialize_entity_bytes rest 2 with _ | ⟨eb, L⟩
              · simp only [Client.recvLoop, hop, hdes]
                exact ih rest c D h
              · simp only [Client.recvLoop, hop, hdes]
                apply ih
                rcases hget : c.handles.getD index none with _ | handle
                · simp only [hget]
                  rcases hreg : reg (eb.headD 0) (eb.drop 1) with _ | ent
                  · simp only [hreg]; exact h
                  · simp only [hreg]
                    exact instOk_set_fresh index h _ (by simp [EntityHandle.new])
                · simp only [hget]
                  split
                  · rcases hreg : reg (eb.headD 0) (eb.drop 1) with _ | ent
                    · simp only [hreg]; exact h
                    · simp only [hreg]
                      exact instOk_set_fresh index h _
                        (by simp [EntityHandle.replace_entity])
                  · exact h
          | ConfirmClientCreate =>
              rcases hget : c.handles.getD index none with _ | handle
              · simp only [Client.recvLoop, hop, hget]
                exact ih rest c D h
              · simp only [Client.recvLoop, hop, hget]
                rcases hacc : (c.local_states.getD index .Unknown).accept with ⟨flag, ls⟩
                simp only [hacc]
                cases flag with
                | false =>
                    simp only [Bool.false_eq_true, if_false]
                    exact ih rest _ D h
                | true =>
                    simp only [if_true]
                    rcases hcr : handle.create with ⟨h', evs⟩
                    simp only [hcr]
                    have hh' : h' = handle := by
                      have := entityHandle_create_fst handle
                      rw [hcr] at this
                      exact this
                    have hevs : destroyedIds evs = [] := by
                      have := destroyedIds_create handle
                      rw [hcr] at this
                      exact this
                    subst hh'
                    rcases hrec : Client.recvLoop es reg fuel
                      { c with
                        local_states := c.local_states.set index ls
                        handles := (c.handles.set index (some h')) } rest with ⟨cr, evsr, err⟩
                    have hInst : InstOk (c.handles.set index (some h')) c.fresh_id D :=
                      instOk_subset h (slot_restrict_set_same index hget _ rfl)
                    have happ := ih rest
                      { c with
                        local_states := c.local_states.set index ls
                        handles := (c.handles.set index (some h')) } D hInst
                    rw [hrec] at happ
                    simp only [hrec]
                    rw [destroyedIds_append, hevs, List.nil_append]
                    exact happ
          | SendUpdateToClient =>
              rcases hdes : deserialize_entity_bytes rest 1 with _ | ⟨eb, L⟩
              · simp only [Client.recvLoop, hop, hdes]
                exact ih rest c D h
              · simp only [Client.recvLoop, hop, hdes]
                apply ih
                rcases hget : c.handles.getD index none with _ | handle
                · simp only [hget]; exact h
                · simp only [hget]
                  split
                  · exact instOk_subset h
                      (slot_restrict_set_same index hget _ (merge_bytes_id es handle none eb))
                  · exact h
          | SendDestroyToClient =>
              rcases hget : c.handles.getD index none with _ | handle
              · simp only [Client.recvLoop, hop, hget]
                exact ih rest c D h
              · simp only [Client.recvLoop, hop, hget]
                rcases hent : handle.entity with _ | ⟨id0, e0⟩
                · have hd : handle.destroy = (handle, []) := by
                    unfold EntityHandle.destroy
                    rw [hent]
                  rw [hd]
                  rcases hrec : Client.recvLoop es reg fuel
                    { c with handles := c.handles.set index (some handle) } rest with
                    ⟨cr, evsr, err⟩
                  have hInst : InstOk (c.handles.set index (some handle)) c.fresh_id D :=
                    instOk_subset h (slot_restrict_set_same index hget _ rfl)
                  have happ := ih rest
                    { c with handles := c.handles.set index (some handle) } D hInst
                  rw [hrec] at happ
                  simp only [hrec]
                  simpa using happ
                · have hd : handle.destroy =
                      ({ handle with entity := none }, [.destroyed id0]) := by
                    unfold EntityHandle.destroy
                    rw [hent]
                  rw [hd]
                  rcases hrec : Client.recvLoop es reg fuel
                    { c with handles := c.handles.set index (some { handle with entity := none }) }
                    rest with ⟨cr, evsr, err⟩
                  have hslot : slotId c.handles index = some id0 := by
                    unfold slotId
                    rw [hget]
                    simp [hent]
                  have hInst : InstOk (c.handles.set index (some { handle with entity := none }))
                      c.fresh_id (D ++ [id0]) :=
                    instOk_destroy_at h hslot _ (by simp)
                  have happ := ih rest
                    { c with handles := c.handles.set index (some { handle with entity := none }) }
                    (D ++ [id0]) hInst
                  rw [hrec] at happ
                  simp only [hrec]
                  rw [destroyedIds_append,
                    show destroyedIds [Ev.destroyed id0] = [id0] from rfl,
                    ← List.append_assoc]
                  exact happ
          | SendForgetToClient =>
              rcases hget : c.handles.getD index none with _ | handle
              · simp only [Client.recvLoop, hop, hget]
                exact ih rest c D h
              · simp only [Client.recvLoop, hop, hget]
                apply ih
                exact instOk_subset h
                  (slot_restrict_set_dead index _ (by simp [EntityHandle.forget]))

theorem clientReceive_instOk (es : EntitySpec Ent U) (reg : Nat → Bytes → Option Ent)
    (c : Client Ent) (bytes : Bytes) (D : List Nat)
    (h : InstOk c.handles c.fresh_id D) :
    InstOk (Client.receive es reg c bytes).1.handles
           (Client.receive es reg c bytes).1.fresh_id
           (D ++ destroyedIds (Client.receive es reg c bytes).2.1) := by
  unfold Client.receive
  by_cases h0 : bytes.length = 0
  · rw [if_pos h0]
    simpa [destroyedIds] using h
  · rw [if_neg h0]
    by_cases hp : ¬ ServerNetworkState.is_potential_packet (bytes.headD 0) = true
    · rw [if_pos hp]
      simpa [destroyedIds] using h
    · rw [if_neg hp]
      exact clientRecvLoop_instOk es reg bytes.length bytes c D h

theorem clientSendLoop_restrict (es : EntitySpec Ent U) (config : Config) :
    ∀ (entries : List ActiveClientEntry)
      (hs : List (Option (EntityHandle Ent ClientEntityToken)))
      (states : List LocalState) (pl : PacketList)
      (r : List (Option (EntityHandle Ent ClientEntityToken)) × PacketList),
      Client.sendLoop es config hs states pl entries = some r →
      ∀ i id, slotId r.1 i = some id → slotId hs i = some id := by
  intro entries
  induction entries with
  | nil =>
      intro hs states pl r hr i id hid
      simp only [Client.sendLoop, Option.some.injEq] at hr
      rw [← hr] at hid
      exact hid
  | cons e restE ih =>
      intro hs states pl r hr i id hid
      simp only [Client.sendLoop] at hr
      rcases hget : hs.getD e.token.index none with _ | handle
      · simp only [hget] at hr
        exact absurd hr (by simp)
      · simp only [hget] at hr
        rcases hab : handle.client_as_bytes es config none
            (states.getD e.token.index .Unknown) with _ | ⟨bytes, h'⟩
        · simp only [hab] at hr
          exact absurd hr (by simp)
        · simp only [hab] at hr
          have hent : h'.entity = handle.entity := by
            unfold EntityHandle.client_as_bytes at hab
            rcases hser : clientSerializerAsBytes es config handle.token none
                (states.getD e.token.index .Unknown) handle.entity handle.update_tick with
              _ | r0
            · rw [hser] at hab
              exact absurd hab (by simp)
            · rw [hser] at hab
              simp only [Option.map_some', Option.some.injEq, Prod.mk.injEq] at hab
              rw [← hab.2]
          have hstep := ih (hs.set e.token.index (some h')) states
            (pl.append_bytes bytes) r hr i id hid
          exact slot_restrict_set_same e.token.index hget _ (by simp [hent]) i id hstep

theorem clientUpdateEntry_restrict (cb : ClientEntityToken → Ent → Ent)
    (config : Config) (hs : List (Option (EntityHandle Ent ClientEntityToken)))
    (states : List LocalState) (e : ActiveClientEntry) :
    ∀ i id, slotId (Client.updateEntry cb config hs states e).1 i = some id →
      slotId hs i = some id := by
  intro i id hid
  unfold Client.updateEntry at hid
  rcases hget : hs.getD e.token.index none with _ | hh
  · simp only [hget] at hid
    split at hid
    · exact hid
    · exact slot_restrict_set_dead _ _ (by simp) i id hid
  · rcases hent : hh.entity with _ | ⟨i0, ent0⟩
    · simp only [hget, hent] at hid
      rcases hto : e.timeout with _ | t
      all_goals simp only [hto, Option.isNone_none, Option.isNone_some, if_true,
        if_false, Bool.false_eq_true, ite_false, ite_true] at hid
      all_goals split at hid
      all_goals simp only [] at hid
      all_goals
        first
          | exact hid
          | exact slot_restrict_set_dead _ _ (by simp) i id hid
    · simp only [hget, hent] at hid
      rcases hto : e.timeout with _ | t
      all_goals simp only [hto] at hid
      all_goals split at hid
      all_goals simp only [] at hid
      all_goals
        first
          | exact slot_restrict_set_same _ hget _ (by simp [hent]) i id hid
          | exact slot_restrict_set_same _ hget _ (by simp [hent]) i id
              (slot_restrict_set_dead _ _ (by simp) i id hid)

theorem clientUpdateLoop_restrict (cb : ClientEntityToken → Ent → Ent) (config : Config) :
    ∀ (entries : List ActiveClientEntry)
      (hs : List (Option (EntityHandle Ent ClientEntityToken)))
      (states : List LocalState) (done : List ActiveClientEntry),
      ∀ i id, slotId (Client.updateLoop cb config hs states done entries).1 i = some id →
        slotId hs i = some id := by
  intro entries
  induction entries with
  | nil =>
      intro hs states done i id hid
      simpa [Client.updateLoop] using hid
  | cons e restE ih =>
      intro hs states done i id hid
      simp only [Client.updateLoop] at hid
      exact clientUpdateEntry_restrict cb config hs states e i id (ih _ _ _ i id hid)

theorem clientResetLoop_restrict :
    ∀ (entries : List ActiveClientEntry)
      (hs : List (Option (EntityHandle Ent ClientEntityToken)))
      (states : List LocalState),
      ∀ i id, slotId (Client.resetLoop hs states entries).1 i = some id →
        slotId hs i = some id := by
  intro entries
  induction entries with
  | nil =>
      intro hs states i id hid
      simpa [Client.resetLoop] using hid
  | cons e restE ih =>
      intro hs states i id hid
      simp only [Client.resetLoop] at hid
      exact slot_restrict_set_dead _ _ (by simp) i id (ih _ _ i id hid)

theorem clientStep_instOk (es : EntitySpec Ent U) (reg : Nat → Bytes → Option Ent)
    (cb : ClientEntityToken → Ent → Ent) (c : Client Ent) (op : ClientOp)
    (D : List Nat) (h : InstOk c.handles c.fresh_id D) :
    InstOk (ClientStep es reg cb c op).1.handles
           (ClientStep es reg cb c op).1.fresh_id
           (D ++ destroyedIds (ClientStep es reg cb c op).2) := by
  cases op with
  | receive bytes => exact clientReceive_instOk es reg c bytes D h
  | update =>
      show InstOk (Client.update_entities_with cb c).handles
        (Client.update_entities_with cb c).fresh_id (D ++ destroyedIds [])
      rw [show destroyedIds [] = [] from rfl, List.append_nil]
      exact instOk_subset h
        (clientUpdateLoop_restrict cb c.config c.active_handles c.handles
          c.local_states [])
  | send m =>
      rcases hsend : Client.send es c m with _ | ⟨c', frames⟩
      · have hstep : ClientStep es reg cb c (.send m) = (c, []) := by
          show (match Client.send es c m with
            | some (c', _) => (c', [])
            | none => (c, [])) = (c, [])
          rw [hsend]
        rw [hstep]
        simpa [destroyedIds] using h
      · have hstep : ClientStep es reg cb c (.send m) = (c', []) := by
          show (match Client.send es c m with
            | some (c', _) => (c', [])
            | none => (c, [])) = (c', [])
          rw [hsend]
        rw [hstep]
        simp only [destroyedIds, List.filterMap_nil, List.append_nil]
        unfold Client.send at hsend
        rcases hloop : Client.sendLoop es c.config c.handles c.local_states
            (PacketList.new m) c.active_handles with _ | r
        · rw [hloop] at hsend
          exact absurd hsend (by simp)
        · rw [hloop] at hsend
          simp only [Option.map_some', Option.some.injEq, Prod.mk.injEq] at hsend
          rw [← hsend.1]
          exact instOk_subset h
            (clientSendLoop_restrict es c.config c.active_handles c.handles
              c.local_states (PacketList.new m) r hloop)
  | reset =>
      show InstOk c.reset.handles c.reset.fresh_id (D ++ destroyedIds [])
      rw [show destroyedIds [] = [] from rfl, List.append_nil]
      exact instOk_subset h
        (clientResetLoop_restrict c.active_handles c.handles c.local_states)

theorem clientRun_instOk (es : EntitySpec Ent U) (reg : Nat → Bytes → Option Ent)
    (cb : ClientEntityToken → Ent → Ent) :
    ∀ (ops : List ClientOp) (c : Client Ent) (D : List Nat),
      InstOk c.handles c.fresh_id D →
      InstOk (ClientRun es reg cb c ops).1.handles
             (ClientRun es reg cb c ops).1.fresh_id
             (D ++ destroyedIds (ClientRun es reg cb c ops).2) := by
  intro ops
  induction ops with
  | nil =>
      intro c D h
      simpa [ClientRun, destroyedIds] using h
  | cons op rest ih =>
      intro c D h
      simp only [ClientRun]
      have hstep := clientStep_instOk es reg cb c op D h
      have hrec := ih (ClientStep es reg cb c op).1
        (D ++ destroyedIds (ClientStep es reg cb c op).2) hstep
      rw [destroyedIds_append, ← List.append_assoc]
      exact hrec

theorem serverRecvLoop_restrict (es : EntitySpec Ent U) (tok : ConnectionToken U) :
    ∀ (fuel : Nat) (bytes : Bytes)
      (hs : List (Option (EntityHandle Ent EntityToken))) (rs : List RemoteState),
      ∀ i id, slotId (Server.recvLoop es tok fuel hs rs bytes).1 i = some id →
        slotId hs i = some id := by
  intro fuel
  induction fuel with
  | zero =>
      intro bytes hs rs i id hid
      match bytes with
      | [] => simpa [Server.recvLoop] using hid
      | [b] => simpa [Server.recvLoop] using hid
      | b1 :: b2 :: rest => simpa [Server.recvLoop] using hid
  | succ fuel ih =>
      intro bytes hs rs i id hid
      match bytes with
      | [] => simpa [Server.recvLoop] using hid
      | [b] => simpa [Server.recvLoop] using hid
      | state :: index :: rest =>
        rcases hop : ClientNetworkState.from_u8 state with _ | cns
        · simpa [Server.recvLoop, hop] using hid
        · cases cns with
          | ConfirmCreateToServer =>
              simp only [Server.recvLoop, hop] at hid
              exact ih rest hs _ i id hid
          | AcceptServerUpdate =>
              simp only [Server.recvLoop, hop] at hid
              exact ih rest hs _ i id hid
          | SendUpdateToServer =>
              rcases hdes : deserialize_entity_bytes rest 1 with _ | ⟨eb, L⟩
              · simp only [Server.recvLoop, hop, hdes] at hid
                exact ih rest hs rs i id hid
              · simp only [Server.recvLoop, hop, hdes] at hid
                rcases hget : hs.getD index none with _ | handle
                · simp only [hget] at hid
                  exact ih _ hs rs i id hid
                · simp only [hget] at hid
                  split at hid
                  · exact slot_restrict_set_same index hget
                      (some (handle.merge_bytes es (some tok) eb))
                      (by simp [merge_bytes_id]) i id (ih _ _ rs i id hid)
                  · exact ih _ hs rs i id hid
          | ConfirmDestroyToServer =>
              simp only [Server.recvLoop, hop] at hid
              rcases hget : hs.getD index none with _ | handle
              · simp only [hget] at hid
                exact ih rest hs _ i id hid
              · simp only [hget] at hid
                split at hid
                · exact ih rest hs _ i id hid
                · exact ih rest hs _ i id hid

theorem serverConnReceive_instOk (es : EntitySpec Ent U) (s : Server Ent U)
    (tok : ConnectionToken U) (bytes : Bytes) (D : List Nat)
    (h : InstOk s.handles s.fresh_id D) :
    InstOk (Server.connection_receive es s tok bytes).1.handles
           (Server.connection_receive es s tok bytes).1.fresh_id D := by
  unfold Server.connection_receive
  by_cases ho : tok.server_index ≠ s.index
  · rw [if_pos ho]; exact h
  · rw [if_neg ho]
    rcases hc : s.connections.getD tok.index none with _ | rs
    · simp only [hc]; exact h
    · simp only [hc]
      by_cases h0 : bytes.length = 0
      · rw [if_pos h0]; exact h
      · rw [if_neg h0]
        by_cases hp : ¬ ClientNetworkState.is_potential_packet (bytes.headD 0) = true
        · rw [if_pos hp]; exact h
        · rw [if_neg hp]
          rcases hrec : Server.recvLoop es tok bytes.length s.handles rs bytes with
            ⟨hs', rs', err⟩
          simp only [hrec]
          apply instOk_subset h
          intro i id hid
          have := serverRecvLoop_restrict es tok bytes.length bytes s.handles rs i id
          rw [hrec] at this
          exact this hid

theorem server_as_bytes_entity {es : EntitySpec Ent U} {config : Config}
    {tok : ConnectionToken U} {st : RemoteState} {h : EntityHandle Ent EntityToken}
    {bytes : Bytes} {h' : EntityHandle Ent EntityToken}
    (hab : h.server_as_bytes es config tok st = some (bytes, h')) :
    h'.entity = h.entity := by
  unfold EntityHandle.server_as_bytes at hab
  rcases hser : serverSerializerAsBytes es config h.token tok st h.entity
      h.update_tick with _ | r0
  · rw [hser] at hab
    exact absurd hab (by simp)
  · rw [hser] at hab
    simp only [Option.map_some', Option.some.injEq, Prod.mk.injEq] at hab
    rw [← hab.2]

theorem serverSendLoop_restrict (es : EntitySpec Ent U) (config : Config)
    (tok : ConnectionToken U) :
    ∀ (entries : List ActiveEntityEntry)
      (hs : List (Option (EntityHandle Ent EntityToken)))
      (rs : List RemoteState) (pl : PacketList) (done : List ActiveEntityEntry) r,
      Server.sendLoop es config tok hs rs pl done entries = some r →
      ∀ i id, slotId r.1 i = some id → slotId hs i = some id := by
  intro entries
  induction entries with
  | nil =>
      intro hs rs pl done r hr i id hid
      simp only [Server.sendLoop, Option.some.injEq] at hr
      rw [← hr] at hid
      exact hid
  | cons e restE ih =>
      intro hs rs pl done r hr i id hid
      simp only [Server.sendLoop] at hr
      rcases hget : hs.getD e.token.index none with _ | handle
      · simp only [hget] at hr
        exact absurd hr (by simp)
      · simp only [hget] at hr
        rcases hent : handle.entity with _ | ⟨i0, ent0⟩
        · simp only [hent, EntityHandle.is_alive, Option.isSome_none,
            Bool.false_eq_true, if_false] at hr
          repeat' split at hr
          all_goals
            first
              | exact Option.noConfusion hr
              | exact ih _ _ _ _ r hr i id hid
              | (rename EntityHandle.server_as_bytes _ _ _ _ _ = some _ => hab
                 have hent2 := server_as_bytes_entity hab
                 exact slot_restrict_set_same e.token.index hget _
                   (by simp [hent2]) i id (ih _ _ _ _ r hr i id hid))
        · simp only [hent, EntityHandle.is_alive, Option.isSome_some, if_true] at hr
          repeat' split at hr
          all_goals
            first
              | exact Option.noConfusion hr
              | exact ih _ _ _ _ r hr i id hid
              | (rename EntityHandle.server_as_bytes _ _ _ _ _ = some _ => hab
                 have hent2 := server_as_bytes_entity hab
                 exact slot_restrict_set_same e.token.index hget _
                   (by simp [hent2]) i id (ih _ _ _ _ r hr i id hid))

theorem serverUpdateEntry_restrict (cb : EntityToken → Ent → Ent) (config : Config)
    (hs : List (Option (EntityHandle Ent EntityToken))) (e : ActiveEntityEntry) :
    ∀ i id, slotId (Server.updateEntry cb config hs e).1 i = some id →
      slotId hs i = some id := by
  intro i id hid
  unfold Server.updateEntry at hid
  rcases hget : hs.getD e.token.index none with _ | hh
  · simp only [hget] at hid
    repeat' split at hid
    all_goals
      first
        | exact hid
        | exact slot_restrict_set_dead _ none rfl i id hid
  · rcases hent : hh.entity with _ | ⟨i0, ent0⟩
    · simp only [hget, hent, EntityHandle.is_alive] at hid
      repeat' split at hid
      all_goals
        first
          | exact hid
          | exact slot_restrict_set_dead _ none rfl i id hid
    · simp only [hget, hent, EntityHandle.is_alive] at hid
      repeat' split at hid
      all_goals
        first
          | exact hid
          | exact slot_restrict_set_dead _ none rfl i id hid
          | exact slot_restrict_set_same _ hget _ (by simp [hent]) i id hid

theorem serverUpdateLoop_restrict (cb : EntityToken → Ent → Ent) (config : Config) :
    ∀ (entries : List ActiveEntityEntry)
      (hs : List (Option (EntityHandle Ent EntityToken))) (done : List ActiveEntityEntry),
      ∀ i id, slotId (Server.updateLoop cb config hs done entries).1 i = some id →
        slotId hs i = some id := by
  intro entries
  induction entries with
  | nil =>
      intro hs done i id hid
      simpa [Server.updateLoop] using hid
  | cons e restE ih =>
      intro hs done i id hid
      simp only [Server.updateLoop] at hid
      exact serverUpdateEntry_restrict cb config hs e i id (ih _ _ i id hid)

theorem serverStep_instOk (es : EntitySpec Ent U) (cb : EntityToken → Ent → Ent)
    (s : Server Ent U) (op : ServerOp Ent U) (D : List Nat)
    (h : InstOk s.handles s.fresh_id D) :
    InstOk (ServerStep es cb s op).1.handles
           (ServerStep es cb s op).1.fresh_id
           (D ++ destroyedIds (ServerStep es cb s op).2) := by
  cases op with
  | createWith e =>
      simp only [ServerStep]
      unfold Server.entity_create_with
      rcases hf : s.find_free_entity_slot_index with _ | k
      · simp only [hf]
        simpa [destroyedIds] using h
      · simp only [hf, EntityHandle.new, EntityHandle.create]
        rw [show destroyedIds [Ev.created s.fresh_id] = [] from rfl, List.append_nil]
        exact instOk_set_fresh k h _ (by simp)
  | destroy tok =>
      simp only [ServerStep]
      unfold Server.entity_destroy
      by_cases ho : tok.server_index ≠ s.index
      · rw [if_pos ho]
        simpa [destroyedIds] using h
      · rw [if_neg ho]
        rcases hget : s.handles.getD tok.index none with _ | handle
        · simp only [hget]
          simpa [destroyedIds] using h
        · simp only [hget]
          rcases hent : handle.entity with _ | ⟨id0, e0⟩
          · have hal : handle.is_alive = false := by
              unfold EntityHandle.is_alive
              rw [hent]
              rfl
            simp only [hal]
            simpa [destroyedIds] using h
          · have hal : handle.is_alive = true := by
              unfold EntityHandle.is_alive
              rw [hent]
              rfl
            have hd : handle.destroy = ({ handle with entity := none }, [.destroyed id0]) := by
              unfold EntityHandle.destroy
              rw [hent]
            simp only [hal, hd, if_true]
            rw [show destroyedIds [Ev.destroyed id0] = [id0] from rfl]
            have hslot : slotId s.handles tok.index = some id0 := by
              unfold slotId
              rw [hget]
              simp [hent]
            exact instOk_destroy_at h hslot _ (by simp)
  | update =>
      simp only [ServerStep]
      rw [show destroyedIds ([] : List Ev) = [] from rfl, List.append_nil]
      exact instOk_subset h (serverUpdateLoop_restrict cb s.config s.active_handles s.handles [])
  | connectionAdd u =>
      simp only [ServerStep]
      unfold Server.connection_add_with
      rcases hf : s.find_free_connection_slot_index with _ | k
      · simp only [hf]
        simpa [destroyedIds] using h
      · simp only [hf]
        simpa [destroyedIds] using h
  | connectionRemove tok =>
      simp only [ServerStep]
      unfold Server.connection_remove
      by_cases ho : tok.server_index ≠ s.index
      · rw [if_pos ho]
        simpa [destroyedIds] using h
      · rw [if_neg ho]
        rcases hc : s.connections.getD tok.index none with _ | rs
        · simp only [hc]
          simpa [destroyedIds] using h
        · simp only [hc]
          simpa [destroyedIds] using h
  | connectionSend tok m =>
      rcases hsend : Server.connection_send es s tok m with _ | r
      · have hstep : ServerStep es cb s (ServerOp.connectionSend tok m) = (s, []) := by
          show (match Server.connection_send es s tok m with
              | some (.ok (s', _)) => (s', [])
              | _ => (s, [])) = (s, [])
          rw [hsend]
        rw [hstep]
        simpa [destroyedIds] using h
      · rcases r with err | ⟨s', frames⟩
        · have hstep : ServerStep es cb s (ServerOp.connectionSend tok m) = (s, []) := by
            show (match Server.connection_send es s tok m with
                | some (.ok (s', _)) => (s', [])
                | _ => (s, [])) = (s, [])
            rw [hsend]
          rw [hstep]
          simpa [destroyedIds] using h
        · have hstep : ServerStep es cb s (ServerOp.connectionSend tok m) = (s', []) := by
            show (match Server.connection_send es s tok m with
                | some (.ok (s', _)) => (s', [])
                | _ => (s, [])) = (s', [])
            rw [hsend]
          rw [hstep]
          rw [show destroyedIds ([] : List Ev) = [] from rfl, List.append_nil]
          unfold Server.connection_send at hsend
          by_cases ho : tok.server_index ≠ s.index
          · rw [if_pos ho] at hsend
            simp only [Option.some.injEq] at hsend
            exact absurd hsend (by simp)
          · rw [if_neg ho] at hsend
            rcases hc : s.connections.getD tok.index none with _ | rs
            · simp only [hc, Option.some.injEq] at hsend
              exact absurd hsend (by simp)
            · simp only [hc] at hsend
              rcases hloop : Server.sendLoop es s.config tok s.handles rs
                  (PacketList.new m) [] s.active_handles with _ | rr
              · rw [hloop] at hsend
                exact absurd hsend (by simp)
              · rw [hloop] at hsend
                simp only [Option.some.injEq, Except.ok.injEq, Prod.mk.injEq] at hsend
                obtain ⟨hs', _⟩ := hsend
                rw [← hs']
                apply instOk_subset h
                intro i id hid
                exact serverSendLoop_restrict es s.config tok s.active_handles
                  s.handles rs (PacketList.new m) [] rr hloop i id hid
  | connectionReceive tok bytes =>
      simp only [ServerStep]
      rw [show destroyedIds ([] : List Ev) = [] from rfl, List.append_nil]
      exact serverConnReceive_instOk es s tok bytes D h

theorem serverRun_instOk (es : EntitySpec Ent U) (cb : EntityToken → Ent → Ent) :
    ∀ (ops : List (ServerOp Ent U)) (s : Server Ent U) (D : List Nat),
      InstOk s.handles s.fresh_id D →
      InstOk (ServerRun es cb s ops).1.handles
             (ServerRun es cb s ops).1.fresh_id
             (D ++ destroyedIds (ServerRun es cb s ops).2) := by
  intro ops
  induction ops with
  | nil =>
      intro s D h
      simpa [ServerRun, destroyedIds] using h
  | cons op rest ih =>
      intro s D h
      simp only [ServerRun]
      have hstep := serverStep_instOk es cb s op D h
      have hrec := ih (ServerStep es cb s op).1
        (D ++ destroyedIds (ServerStep es cb s op).2) hstep
      rw [destroyedIds_append, ← List.append_assoc]
      exact hrec


/-- **C1.** The host's `destroyed()` hook runs at most once per entity
instance, and never on a forget path.  (a) Over any run of host-driver
operations on a fresh client the instance ids carried by `destroyed`
events are pairwise distinct, and (b) likewise for a fresh server;
(c) `Server::entity_destroy` applied to a handle whose entity box is
already gone returns `Ok` without firing any hook; (d) a
`SendForgetToClient` token fires no hook on the client; (e) a complete
`SendCreateToClient` token - including the re-create path that drops the
old box via `replace_entity` - fires no hook; (f) `Client::reset` fires
no hook. -/
theorem destroyed_hook_at_most_once (es : EntitySpec Ent U)
    (reg : Nat → Bytes → Option Ent) (ccb : ClientEntityToken → Ent → Ent)
    (scb : EntityToken → Ent → Ent) :
    (∀ (config : Config) (cid : Nat) (ops : List ClientOp),
       (destroyedIds (ClientRun es reg ccb (Client.new config cid) ops).2).Nodup) ∧
    (∀ (config : Config) (sid : Nat) (ops : List (ServerOp Ent U)),
       (destroyedIds (ServerRun es scb (Server.new config sid) ops).2).Nodup) ∧
    (∀ (s : Server Ent U) (tok : EntityToken) (h : EntityHandle Ent EntityToken),
       tok.server_index = s.index →
       s.handles.getD tok.index none = some h →
       h.entity = none →
       s.entity_destroy tok = .ok (s, [])) ∧
    (∀ (c : Client Ent) (index : Nat),
       (Client.receive es reg c
          [ServerNetworkState.SendForgetToClient.toByte, index]).2.1 = []) ∧
    (∀ (fuel : Nat) (c : Client Ent) (index : Nat) (rest eb : Bytes) (L : Nat),
       deserialize_entity_bytes rest 2 = some (eb, L) →
       rest.drop L = [] →
       (Client.recvLoop es reg (fuel + 1) c
          (ServerNetworkState.SendCreateToClient.toByte :: index :: rest)).2.1 = []) ∧
    (∀ c : Client Ent, destroyedIds (ClientStep es reg ccb c .reset).2 = []) := by
  refine ⟨?_, ?_, ?_, ?_, ?_, ?_⟩
  · intro config cid ops
    have h0 : InstOk (Client.new config cid : Client Ent).handles
        (Client.new config cid : Client Ent).fresh_id [] := instOk_replicate 0
    have h1 := clientRun_instOk es reg ccb ops (Client.new config cid) [] h0
    simpa using h1.1
  · intro config sid ops
    have h0 : InstOk (Server.new config sid : Server Ent U).handles
        (Server.new config sid : Server Ent U).fresh_id [] := instOk_replicate 0
    have h1 := serverRun_instOk es scb ops (Server.new config sid) [] h0
    simpa using h1.1
  · intro s tok h hidx hget hent
    unfold Server.entity_destroy
    rw [if_neg (by simp [hidx])]
    simp only [hget]
    have hal : h.is_alive = false := by
      unfold EntityHandle.is_alive
      rw [hent]
      rfl
    rw [hal]
    simp
  · intro c index
    simp [Client.receive, Client.recvLoop, ServerNetworkState.from_u8,
      ServerNetworkState.is_potential_packet, ServerNetworkState.toByte]
    split <;> rfl
  · intro fuel c index rest eb L hdes hdrop
    simp [Client.recvLoop, ServerNetworkState.from_u8, ServerNetworkState.toByte,
      hdes, hdrop]
  · intro c
    rfl

/-- Concrete instantiation of the C1 theorem: the §8 scenario client run
(create, destroy, destroy-again), a server create/destroy run, a dead
destroy on the already-destroyed server, a forget token, a complete
re-create token and a reset, with every hypothesis discharged. -/
theorem destroyed_hook_at_most_once_witness :
    (destroyedIds (ClientRun scenarioSpec scenarioReg (fun _ e => e)
        (Client.new Config.default 0)
        [ClientOp.receive [0, 0, 3, 1, 255, 128, 255],
         ClientOp.receive [2, 0], ClientOp.receive [4, 0]]).2).Nodup ∧
    (destroyedIds (ServerRun scenarioSpec (fun _ e => e)
        (Server.new Config.default 0)
        [ServerOp.createWith (), ServerOp.destroy ⟨0, 0⟩]).2).Nodup ∧
    Server.entity_destroy c8sB ⟨0, 0⟩ = .ok (c8sB, []) ∧
    (Client.receive scenarioSpec scenarioReg scenarioClient1
        [ServerNetworkState.SendForgetToClient.toByte, 0]).2.1 = [] ∧
    (Client.recvLoop scenarioSpec scenarioReg 6 scenarioClient1
        (ServerNetworkState.SendCreateToClient.toByte :: 0 :: [3, 1, 255, 128, 255])).2.1
      = [] ∧
    destroyedIds (ClientStep scenarioSpec scenarioReg (fun _ e => e)
        scenarioClient1 ClientOp.reset).2 = [] := by
  have H := destroyed_hook_at_most_once scenarioSpec scenarioReg
    (fun _ e => e) (fun _ e => e)
  exact ⟨H.1 Config.default 0 _,
         H.2.1 Config.default 0 _,
         H.2.2.1 c8sB ⟨0, 0⟩ ⟨⟨0, 0⟩, none, 0⟩ rfl rfl rfl,
         H.2.2.2.1 scenarioClient1 0,
         H.2.2.2.2.1 5 scenarioClient1 0 [3, 1, 255, 128, 255] [1, 255, 128, 255] 5
           (by decide) (by decide),
         H.2.2.2.2.2 scenarioClient1⟩

end CobaltEntity
